import Mathlib

/-!
Verification of the polarity aws-athena integration against its
natural-language specification.

The JavaScript source (src/integration.js and the unnamed sibling module,
called `part_001` below) is shallowly embedded: strings are Lean `String`s
processed as `List Char`, JS `null`/`undefined` become `Option`, thrown
errors become `Except`, and the stateful prepared-statement cache becomes
explicit state passing.  Remote AWS Athena behaviour (the sequence of states
returned by successive `GetQueryExecutionCommand` calls, the result rows,
whether the prepared statement exists) is a parameter of each embedded
operation.  Wall-clock execution statistics (`Date.now()`-derived fields)
are elided from the embedded result objects, and the luxon string-format
date parsers (`fromISO` etc.) are abstract parameters; the epoch-based
parsers (`fromSeconds`/`fromMillis`) and the `DATETIME_SHORT` renderer are
modelled concretely (UTC zone, en-US locale).
-/

deriving instance DecidableEq for Except

namespace AwsAthena

/-! ## JS character and string primitives -/

/-- The single-quote character (code 39), used by `escapeEntityValue`. -/
def squote : Char := Char.ofNat 39

/-- The backslash character (code 92), used by `escapeEntityValue`. -/
def bslash : Char := Char.ofNat 92

/-- JS regex `\w`: ASCII letters, digits and underscore. -/
def isWordChar (c : Char) : Bool := c.isAlphanum || c = '_'

/-- JS `String#toLowerCase`, restricted to ASCII case mapping (the sole
difference from JS is non-ASCII letters, which no claim exercises). -/
def jsToLower (s : String) : String := String.mk (s.toList.map Char.toLower)

/-- JS `String#trim` on a character list. -/
def jsTrimList (l : List Char) : List Char :=
  ((l.dropWhile Char.isWhitespace).reverse.dropWhile Char.isWhitespace).reverse

/-- JS `String#split` with a single-character separator: split never
returns an empty list, and empty fields are kept (`"".split(x) = [""]`). -/
def splitOnChar (sep : Char) : List Char → List (List Char)
  | [] => [[]]
  | c :: rest =>
    match splitOnChar sep rest with
    | [] => [[c]]
    | g :: gs => if c = sep then [] :: g :: gs else (c :: g) :: gs

/-- JS truthiness of `a || b` for strings (only the empty string is falsy). -/
def jsOrStr (a b : String) : String := if a = "" then b else a

/-- JS `a || b` where `a` may be `undefined`: `undefined` and the empty
string are falsy. -/
def jsOrOpt (a : Option String) (b : String) : String :=
  match a with
  | some s => if s = "" then b else s
  | none => b

/-- JS template-literal interpolation of a possibly-`undefined` string. -/
def jsShow : Option String → String
  | some s => s
  | none => "undefined"

/-- Whether `pat` starts the list `l`. -/
def startsWithList (pat : List Char) (l : List Char) : Bool :=
  match pat, l with
  | [], _ => true
  | _ :: _, [] => false
  | a :: pat2, b :: l2 => a = b && startsWithList pat2 l2

/-- Whether `pat` occurs as a contiguous run inside `l`. -/
def occursInList (pat : List Char) : List Char → Bool
  | [] => pat.isEmpty
  | c :: rest => startsWithList pat (c :: rest) || occursInList pat rest

/-- Whether `sub` occurs as a contiguous substring of `s`. -/
def containsStr (s sub : String) : Bool := occursInList sub.toList s.toList

/-- Decimal digit run to a natural number (base 10). -/
def digitsToNat (ds : List Char) : Nat :=
  ds.foldl (fun acc c => 10 * acc + (c.toNat - '0'.toNat)) 0

/-- Little-endian decimal digits of `n`; the fuel argument is an upper bound
on the digit count (`n` itself always suffices). -/
def natToDecRev : Nat → Nat → List Char
  | 0, _ => []
  | fuel + 1, n => if n = 0 then [] else Nat.digitChar (n % 10) :: natToDecRev fuel (n / 10)

/-- Decimal rendering of a natural number. -/
def natToDecimal (n : Nat) : String :=
  if n = 0 then "0" else String.mk (natToDecRev n n).reverse

/-- JS `String(intValue)` for an integer value (decimal, `-` sign;
`String(-0)` is `"0"`, which the `Int` model gives for free). -/
def intToDecimal (i : Int) : String :=
  if i < 0 then String.mk ('-' :: (natToDecimal i.natAbs).toList) else natToDecimal i.toNat

/-- Whether a string is an optionally-negated nonempty decimal digit run. -/
def isIntLiteral (s : String) : Bool :=
  match s.toList with
  | [] => false
  | c :: ds =>
    if c = '-' then !ds.isEmpty && ds.all Char.isDigit
    else c.isDigit && ds.all Char.isDigit

/-- JS `parseInt(s, 10)`, exact mathematical value: skip leading
whitespace, optional sign, then a maximal nonempty digit run; `NaN` (here
`none`) when no digit is found.  The JS engine then rounds this value to
the nearest IEEE-754 double; that rounding is applied by the caller via
`jsDoubleOfInt`. -/
def jsParseInt (s : String) : Option Int :=
  let l := s.toList.dropWhile Char.isWhitespace
  let signed : Int × List Char :=
    match l with
    | '-' :: r => (-1, r)
    | '+' :: r => (1, r)
    | _ => (1, l)
  let ds := signed.2.takeWhile Char.isDigit
  if ds.isEmpty then none else some (signed.1 * (digitsToNat ds : Int))

/-! ## IEEE-754 doubles and ECMAScript number-to-string

`String(parseInt(v))` and `String(parseFloat(v))` pass through a double:
round to nearest (ties to even), overflow to Infinity, subnormals at scale
`2^-1074`; rendering follows ECMA-262 Number::toString(10), which picks the
shortest decimal `s · 10^(n-k)` that rounds back to the same double and
chooses fixed or exponential notation from the decimal exponent `n`.
Everything is exact integer arithmetic. -/

/-- Kernel-reducible binary logarithm (`Nat.log2` is defined by
well-founded recursion, which does not evaluate in the kernel); the fuel
argument bounds the recursion depth, `n` itself always suffices. -/
def log2Fuel : Nat → Nat → Nat
  | 0, _ => 0
  | fuel + 1, n => if 2 ≤ n then log2Fuel fuel (n / 2) + 1 else 0

/-- `Nat.log2`, computably. -/
def natLog2 (n : Nat) : Nat := log2Fuel n n

/-- Kernel-reducible decimal logarithm (used only as a magnitude guard). -/
def log10Fuel : Nat → Nat → Nat
  | 0, _ => 0
  | fuel + 1, n => if 10 ≤ n then log10Fuel fuel (n / 10) + 1 else 0

/-- `Nat.log 10`, computably. -/
def natLog10 (n : Nat) : Nat := log10Fuel n n

/-- A JS number that is not NaN: finite `(-1)^neg · m · 2^exp2` (with
`m < 2^53`) or an infinity. -/
inductive JsDouble where
  | finite (neg : Bool) (m : Nat) (exp2 : Int)
  | inf (neg : Bool)
  deriving Repr, DecidableEq

/-- Replace the sign of a double. -/
def setNeg (b : Bool) : JsDouble → JsDouble
  | .finite _ m e => .finite b m e
  | .inf _ => .inf b

/-- First integer `i ≥ start` (within `fuel` steps) satisfying `P`. -/
def searchFirstInt (P : Int → Bool) : Int → Nat → Option Int
  | _, 0 => none
  | start, fuel + 1 => if P start then some start else searchFirstInt P (start + 1) fuel

/-- `p/q < 2^E` by exact integer comparison. -/
def ratLtPow2 (p q : Nat) (E : Int) : Bool :=
  if 0 ≤ E then p < q * 2 ^ E.toNat else p * 2 ^ (-E).toNat < q

/-- `p/q < 10^n` by exact integer comparison. -/
def ratLtPow10 (p q : Nat) (n : Int) : Bool :=
  if 0 ≤ n then p < q * 10 ^ n.toNat else p * 10 ^ (-n).toNat < q

/-- `(p/q) · 10^e` as an exact fraction. -/
def mulPow10 (p q : Nat) (e : Int) : Nat × Nat :=
  if 0 ≤ e then (p * 10 ^ e.toNat, q) else (p, q * 10 ^ (-e).toNat)

/-- Nearest integer to `p/q`, ties to even. -/
def roundHalfEven (p q : Nat) : Nat :=
  let d := p / q
  let r := p % q
  if 2 * r < q then d
  else if q < 2 * r then d + 1
  else if d % 2 = 0 then d else d + 1

/-- Round the nonnegative rational `p/q` to the nearest double (ties to
even): find the minimal binary exponent `E` with `p/q < 2^E`, round the
mantissa at scale `2^(E-53)` (clamped to the subnormal scale `2^-1074`),
carry `2^53 → 2^52` with an exponent bump, overflow past `2^1024` to
Infinity. -/
def roundPosRatToDouble (p q : Nat) : JsDouble :=
  match searchFirstInt (ratLtPow2 p q) ((natLog2 p : Int) - (natLog2 q : Int) - 1) 8 with
  | none => .inf false
  | some E =>
    if 1024 < E then .inf false
    else
      let scale := max (E - 53) (-1074)
      let m :=
        if 0 ≤ scale then roundHalfEven p (q * 2 ^ scale.toNat)
        else roundHalfEven (p * 2 ^ (-scale).toNat) q
      if m = 2 ^ 53 then
        if 1024 ≤ E then .inf false else .finite false (2 ^ 52) (scale + 1)
      else .finite false m scale

/-- The double for an exact integer (JS `parseInt` result). -/
def jsDoubleOfInt (n : Int) : JsDouble :=
  setNeg (decide (n < 0)) (roundPosRatToDouble n.natAbs 1)

/-- Minimal `n` with `p/q < 10^n` (the ECMA decimal exponent of `p/q`). -/
def decExpOf (p q : Nat) : Option Int :=
  if q ≤ p then searchFirstInt (ratLtPow10 p q) 1 400
  else searchFirstInt (ratLtPow10 p q) (-350) 400

/-- The ECMA shortest-digits search for the positive double `d` of exact
value `vp/vq` and decimal exponent `n`: for `k = 1, 2, …` consider the two
integers nearest `v · 10^(k-n)`; a candidate `c` is viable when it has `k`
digits (`c = 10^k` standing for the `k = 1` carry form `1 · 10^n`) and
`c · 10^(n-k)` rounds back to `d`; among the two, ECMA takes the closer,
ties to the larger.  Returns the digits value `s` and the final decimal
exponent. -/
def searchKGo (vp vq : Nat) (d : JsDouble) (n : Int) : Nat → Nat → Option (Nat × Int)
  | _, 0 => none
  | k, fuel + 1 =>
    let x := mulPow10 vp vq ((k : Int) - n)
    let s0 := x.1 / x.2
    let accept : Nat → Bool := fun c =>
      decide (10 ^ (k - 1) ≤ c) && decide (c ≤ 10 ^ k) &&
        (let cv := mulPow10 c 1 (n - (k : Int))
         decide (roundPosRatToDouble cv.1 cv.2 = d))
    let form : Nat → Nat × Int := fun c => if c = 10 ^ k then (1, n + 1) else (c, n)
    if accept s0 then
      if accept (s0 + 1) then
        let r := x.1 % x.2
        if 2 * r < x.2 then some (form s0) else some (form (s0 + 1))
      else some (form s0)
    else if accept (s0 + 1) then some (form (s0 + 1))
    else searchKGo vp vq d n (k + 1) fuel

/-- ECMA Number::toString(10) rendering of digits `s` at decimal exponent
`n`: fixed notation with appended zeros for `k ≤ n ≤ 21`, an embedded point
for `0 < n ≤ 21 < …`, a leading `0.` for `-6 < n ≤ 0`, exponential
otherwise. -/
def renderDigits (s : Nat) (n : Int) : String :=
  let ds := natToDecimal s
  let k : Int := (ds.length : Int)
  if k ≤ n ∧ n ≤ 21 then ds ++ String.mk (List.replicate (n - k).toNat '0')
  else if 0 < n ∧ n ≤ 21 then
    String.mk (ds.toList.take n.toNat) ++ "." ++ String.mk (ds.toList.drop n.toNat)
  else if -6 < n ∧ n ≤ 0 then
    "0." ++ String.mk (List.replicate (-n).toNat '0') ++ ds
  else
    let ePart := if 0 ≤ n - 1 then "e+" ++ natToDecimal (n - 1).toNat
      else "e-" ++ natToDecimal (1 - n).toNat
    if ds.length = 1 then ds ++ ePart
    else String.mk (ds.toList.take 1) ++ "." ++ String.mk (ds.toList.drop 1) ++ ePart

/-- ECMA `String()` of a non-NaN number.  `String(-0)` is `"0"`.  The
`none` fallbacks of the exponent and digit searches are unreachable for
canonical doubles (the searches are total on the range a rounded double can
take). -/
def jsDoubleToString : JsDouble → String
  | .inf neg => if neg then "-Infinity" else "Infinity"
  | .finite neg m exp2 =>
    if m = 0 then "0"
    else
      let v : Nat × Nat := if 0 ≤ exp2 then (m * 2 ^ exp2.toNat, 1) else (m, 2 ^ (-exp2).toNat)
      let sgn := if neg then "-" else ""
      match decExpOf v.1 v.2 with
      | none => sgn ++ natToDecimal m
      | some n =>
        match searchKGo v.1 v.2 (.finite false m exp2) n 1 30 with
        | none => sgn ++ natToDecimal m
        | some sn => sgn ++ renderDigits sn.1 sn.2

/-- Result of JS `parseFloat`: NaN (no numeric prefix), an Infinity
literal, or the exact decimal value `(-1)^neg · mant · 10^exp10` of the
matched prefix. -/
inductive FloatParsed where
  | notNum
  | infRes (neg : Bool)
  | numRes (neg : Bool) (mant : Nat) (exp10 : Int)
  deriving Repr, DecidableEq

/-- JS `parseFloat`: optional sign, `Infinity`, or a decimal mantissa with
optional fraction and exponent clause; the longest valid prefix is parsed
and converted exactly. -/
def jsParseFloat (s : String) : FloatParsed :=
  let l := s.toList.dropWhile Char.isWhitespace
  let signed : Bool × List Char :=
    match l with
    | '-' :: r => (true, r)
    | '+' :: r => (false, r)
    | _ => (false, l)
  if signed.2.take 8 = "Infinity".toList then .infRes signed.1
  else
    let ip := signed.2.takeWhile Char.isDigit
    let l2 := signed.2.dropWhile Char.isDigit
    let fracAndRest : List Char × List Char :=
      match l2 with
      | '.' :: r => (r.takeWhile Char.isDigit, r.dropWhile Char.isDigit)
      | _ => ([], l2)
    if ip.isEmpty && fracAndRest.1.isEmpty then .notNum
    else
      let mant := digitsToNat (ip ++ fracAndRest.1)
      let fLen : Int := (fracAndRest.1.length : Int)
      let ex : Int :=
        match fracAndRest.2 with
        | e :: r =>
          if e = 'e' ∨ e = 'E' then
            match r with
            | '+' :: r2 =>
              let ds := r2.takeWhile Char.isDigit
              if ds.isEmpty then 0 else (digitsToNat ds : Int)
            | '-' :: r2 =>
              let ds := r2.takeWhile Char.isDigit
              if ds.isEmpty then 0 else -(digitsToNat ds : Int)
            | _ =>
              let ds := r.takeWhile Char.isDigit
              if ds.isEmpty then 0 else (digitsToNat ds : Int)
          else 0
        | [] => 0
      .numRes signed.1 mant (ex - fLen)

/-- The double of a parsed decimal `(-1)^neg · mant · 10^exp10`.  The ±400
guard on the overall decimal magnitude only short-circuits exponents far
beyond the double range (overflow is above ~1e308, underflow below
~1e-324, both inside the guard), so it agrees with rounding. -/
def jsDoubleOfDecimal (neg : Bool) (mant : Nat) (exp10 : Int) : JsDouble :=
  if mant = 0 then .finite neg 0 0
  else
    let mag : Int := (natLog10 mant : Int) + 1 + exp10
    if 400 < mag then .inf neg
    else if mag < -400 then .finite neg 0 0
    else
      let pr := mulPow10 mant 1 exp10
      setNeg neg (roundPosRatToDouble pr.1 pr.2)

/-- JS `Number(s)` as an exact scaled integer `m · 10^e`; `none` models `NaN`
and `±Infinity` (both make every luxon date invalid downstream).  The whole
(trimmed) string must be a decimal literal; hex/octal/binary literals are not
modelled.  Written exponents beyond ±400 saturate like doubles do: overflow
to `none` (Infinity), underflow to zero. -/
def jsToNumber (s : String) : Option (Int × Int) :=
  let l := jsTrimList s.toList
  if l.isEmpty then some (0, 0)
  else
    let signed : Int × List Char :=
      match l with
      | '-' :: r => (-1, r)
      | '+' :: r => (1, r)
      | _ => (1, l)
    if signed.2 = "Infinity".toList then none
    else
      let ip := signed.2.takeWhile Char.isDigit
      let l2 := signed.2.dropWhile Char.isDigit
      let fracAndRest : List Char × List Char :=
        match l2 with
        | '.' :: r => (r.takeWhile Char.isDigit, r.dropWhile Char.isDigit)
        | _ => ([], l2)
      if ip.isEmpty && fracAndRest.1.isEmpty then none
      else
        let l3 := fracAndRest.2
        let mant : Int := signed.1 * (digitsToNat (ip ++ fracAndRest.1) : Int)
        let expoPart : Option Int :=
          match l3 with
          | e :: r =>
            if e = 'e' ∨ e = 'E' then
              let signedE : Int × List Char :=
                match r with
                | '-' :: r2 => (-1, r2)
                | '+' :: r2 => (1, r2)
                | _ => (1, r)
              let ds := signedE.2.takeWhile Char.isDigit
              if ds.isEmpty ∨ ¬(signedE.2.dropWhile Char.isDigit).isEmpty then none
              else some (signedE.1 * (digitsToNat ds : Int))
            else none
          | [] => some 0
        match expoPart with
        | none => none
        | some ex =>
          let e := ex - (fracAndRest.1.length : Int)
          if e > 400 then (if mant = 0 then some (0, 0) else none)
          else if e < -400 then some (0, 0)
          else some (mant, e)

/-! ## Luxon model (date formatting and epoch parsers)

Luxon is an external dependency.  Its epoch constructors and the
`DATETIME_SHORT` renderer have arithmetic content and are modelled
concretely (UTC zone, en-US locale `M/D/YYYY, h:mm AM/PM`); its four
string-format parsers are abstract parameters returning the epoch
milliseconds of a valid parse. -/

/-- Proleptic Gregorian civil date from days since 1970-01-01
(standard era-based conversion). -/
def civilFromDays (z0 : Int) : Int × Nat × Nat :=
  let z := z0 + 719468
  let era := z.fdiv 146097
  let doe := (z - era * 146097).toNat
  let yoe := (doe - doe / 1460 + doe / 36524 - doe / 146096) / 365
  let y := (yoe : Int) + era * 400
  let doy := doe - (365 * yoe + yoe / 4 - yoe / 100)
  let mp := (5 * doy + 2) / 153
  let d := doy - (153 * mp + 2) / 5 + 1
  let m := if mp < 10 then mp + 3 else mp - 9
  (if m ≤ 2 then y + 1 else y, m, d)

/-- Luxon `toLocaleString(DateTime.DATETIME_SHORT)` of an epoch-millisecond
instant: `M/D/YYYY, h:mm AM/PM`. -/
def formatDateTimeShort (ms : Int) : String :=
  let days := ms.fdiv 86400000
  let msOfDay := (ms.emod 86400000).toNat
  let ymd := civilFromDays days
  let hours := msOfDay / 3600000
  let minutes := msOfDay / 60000 % 60
  let h12 := hours % 12
  let hDisp := if h12 = 0 then 12 else h12
  let mm := (if minutes < 10 then "0" else "") ++ toString minutes
  toString ymd.2.1 ++ "/" ++ toString ymd.2.2 ++ "/" ++ toString ymd.1 ++ ", " ++
    toString hDisp ++ ":" ++ mm ++ " " ++ (if hours < 12 then "AM" else "PM")

/-- Epoch milliseconds of `m · 10^e` scaled by `mult` (1000 for
`fromSeconds`, 1 for `fromMillis`), or `none` when outside luxon's
±8.64·10^15 ms validity range.  Luxon floors fractional milliseconds on
formatting, modelled by `Int.fdiv`. -/
def scaledToMs (mult m e : Int) : Option Int :=
  let ms :=
    if e ≥ 0 then m * mult * (10 : Int) ^ e.toNat
    else (m * mult).fdiv ((10 : Int) ^ e.natAbs)
  if ms.natAbs ≤ 8640000000000000 then some ms else none

/-- Luxon `DateTime.fromSeconds(+attribute)`: `some` epoch ms iff valid. -/
def fromSecondsJS (s : String) : Option Int :=
  match jsToNumber s with
  | none => none
  | some me => scaledToMs 1000 me.1 me.2

/-- Luxon `DateTime.fromMillis(+attribute)`: `some` epoch ms iff valid. -/
def fromMillisJS (s : String) : Option Int :=
  match jsToNumber s with
  | none => none
  | some me => scaledToMs 1 me.1 me.2

/-- The luxon string-format parsers used by `parseAttribute`, abstractly:
each returns the epoch milliseconds of a valid parse, `none` when the
input does not match the format. -/
structure LuxonFormats where
  fromISO : String → Option Int
  fromHTTP : String → Option Int
  fromRFC2822 : String → Option Int
  fromSQL : String → Option Int

/-- Luxon parsers that accept nothing (used to instantiate claims whose
inputs are invalid under every string format). -/
def rejectAllFormats : LuxonFormats :=
  { fromISO := fun _ => none
    fromHTTP := fun _ => none
    fromRFC2822 := fun _ => none
    fromSQL := fun _ => none }

/-! ## Type-Hint Parser (`parseTypeHints`, part_001 lines 54-73)

`query.replace(/\?(?::(\w+))?/g, ...)` scans left to right; every `?`
starts a match, optionally consuming `:` followed by a maximal nonempty run
of word characters.  Each match contributes one type hint (the tag word,
defaulting to `"string"`) and is replaced by a bare `?`. -/

/-- One left-to-right pass of the regex replace: returns the canonical
template characters and the hint types in encounter order.  Structural
recursion on a fuel counter so that the definition evaluates in the kernel;
each step consumes at least one character, so `fuel = length` suffices and
the fuel-exhausted branch is unreachable from `scanPlaceholders`. -/
def scanGo : Nat → List Char → List Char × List String
  | 0, l => (l, [])
  | _ + 1, [] => ([], [])
  | fuel + 1, '?' :: ':' :: d :: rest2 =>
    if isWordChar d then
      let after := (d :: rest2).dropWhile isWordChar
      let tag := (d :: rest2).takeWhile isWordChar
      let r := scanGo fuel after
      ('?' :: r.1, String.mk tag :: r.2)
    else
      let r := scanGo fuel (':' :: d :: rest2)
      ('?' :: r.1, "string" :: r.2)
  | fuel + 1, '?' :: rest =>
    let r := scanGo fuel rest
    ('?' :: r.1, "string" :: r.2)
  | fuel + 1, c :: rest =>
    let r := scanGo fuel rest
    (c :: r.1, r.2)

/-- The regex scan with enough fuel for its whole input. -/
def scanPlaceholders (l : List Char) : List Char × List String :=
  scanGo l.length l

/-- True when no `?` in the character list is immediately followed by
`:` and a word character, i.e. every placeholder is untagged. -/
def noTaggedPlaceholder : List Char → Bool
  | '?' :: ':' :: d :: rest => !(isWordChar d) && noTaggedPlaceholder (':' :: d :: rest)
  | _ :: rest => noTaggedPlaceholder rest
  | [] => true

/-- A type hint as pushed by the JS callback: `{index, type}`. -/
structure TypeHint where
  index : Nat
  type : String
  deriving Repr, DecidableEq

/-- `parseTypeHints(query)`: canonical query plus ordered hint list
(`index` is the running `parameterIndex` counter). -/
def parseTypeHints (query : String) : String × List TypeHint :=
  let r := scanPlaceholders query.toList
  (String.mk r.1, r.2.enum.map fun p => { index := p.1, type := p.2 })

/-! ## Parameter Binder (`escapeEntityValue` lines 45-52,
`createParameterValue` lines 156-196) -/

/-- Strip CR/LF, backslash-escape backslashes, then backslash-escape single
quotes. -/
def escapeEntityValue (entityValue : String) : String :=
  let noNewlines := entityValue.toList.filter fun c => !(c = '\n' ∨ c = '\r')
  String.mk (noNewlines.map fun c =>
    if c = bslash then [bslash, bslash]
    else if c = squote then [bslash, squote]
    else [c]).flatten

/-- `createParameterValue(entityValue, type)`: coerce one entity value to a
SQL literal for the given type tag, or throw (`Except.error`). -/
def createParameterValue (entityValue : String) (ty : String := "string") : Except String String :=
  let escapedValue := escapeEntityValue entityValue
  let t := jsToLower ty
  if t = "integer" ∨ t = "int" ∨ t = "bigint" then
    match jsParseInt entityValue with
    | none => .error ("Cannot convert \"" ++ entityValue ++ "\" to integer type")
    | some intValue => .ok (jsDoubleToString (jsDoubleOfInt intValue))
  else if t = "decimal" ∨ t = "double" ∨ t = "float" ∨ t = "real" then
    match jsParseFloat entityValue with
    | .notNum => .error ("Cannot convert \"" ++ entityValue ++ "\" to numeric type")
    | .infRes neg => .ok (jsDoubleToString (.inf neg))
    | .numRes neg mant ex => .ok (jsDoubleToString (jsDoubleOfDecimal neg mant ex))
  else if t = "boolean" ∨ t = "bool" then
    let lowerValue := jsToLower entityValue
    if lowerValue = "true" ∨ lowerValue = "1" then .ok "true"
    else if lowerValue = "false" ∨ lowerValue = "0" then .ok "false"
    else .error ("Cannot convert \"" ++ entityValue ++ "\" to boolean type")
  else .ok (String.mk (squote :: escapedValue.toList ++ [squote]))

/-! ## Prepared Statement Manager (`ensurePreparedStatement`,
part_001 lines 75-154)

The module-level mutables `currentQuery`/`currentPreparedStatement` and the
remote registry become explicit state.  The remote calls issued by one
invocation are returned as a trace. -/

/-- One remote Athena prepared-statement API call. -/
inductive RemoteCallKind where
  | getPS
  | createPS
  | updatePS
  deriving Repr, DecidableEq

/-- Process-local cache (`currentQuery`, `currentPreparedStatement`) plus
whether the statement exists in the remote workgroup (observed by the
`GetPreparedStatementCommand` existence probe and established by a
successful create/update). -/
structure PSState where
  currentQuery : Option String
  currentPreparedStatement : Option String
  remoteExists : Bool
  deriving Repr, DecidableEq

/-- `ensurePreparedStatement(query, options)`: returns the handle name, the
new cache/remote state, and the remote calls issued.  `statementName` stands
for `polarity_prepared_statement_<directory>` (the directory name is
deployment-specific).  In the cached branch the JS returns the non-null
`currentPreparedStatement`; `getD` merely discharges the option. -/
def ensurePreparedStatement (statementName : String) (query : String) (s : PSState) :
    String × PSState × List RemoteCallKind :=
  let processedQuery := (parseTypeHints query).1
  if s.currentQuery ≠ some processedQuery ∨ s.currentPreparedStatement = none then
    if s.remoteExists then
      (statementName, ⟨some processedQuery, some statementName, true⟩,
        [.getPS, .updatePS])
    else
      (statementName, ⟨some processedQuery, some statementName, true⟩,
        [.getPS, .createPS])
  else
    (s.currentPreparedStatement.getD statementName, s, [])

/-- A sequence of `ensurePreparedStatement` calls threading the cache state,
accumulating the remote-call trace. -/
def ensureSeq (statementName : String) (s : PSState) : List String → PSState × List RemoteCallKind
  | [] => (s, [])
  | q :: qs =>
    let r := ensurePreparedStatement statementName q s
    let rest := ensureSeq statementName r.2.1 qs
    (rest.1, r.2.2 ++ rest.2)

/-- Number of remote create/update (i.e. write) calls in a trace. -/
def countCreateUpdate (calls : List RemoteCallKind) : Nat :=
  calls.countP fun c => c ≠ .getPS

/-! ## Query Execution State Machine (`executeAthenaQuery`, part_001
lines 268-420 / integration.js lines 245-338, and
`checkQueryStatusAndGetResults`, part_001 lines 846-946)

The remote service is a parameter: `state n` / `reason n` are the
`Status.State` / `Status.StateChangeReason` fields returned by the `n`-th
`GetQueryExecutionCommand` (0-indexed), and `rows` is the
`GetQueryResultsCommand` response.  Each loop iteration sleeps
`POLLING_WAIT_INTERVAL` milliseconds and then issues exactly one status
check, so status checks and sleeps are counted together by `attempts`. -/

/-- Remote behaviour of one Athena query execution. -/
structure RemoteQuery where
  state : Nat → String
  reason : Nat → Option String
  rows : List (List String)

/-- `MAX_QUERY_STATUS_POLLING_ATTEMPTS` (part_001 line 18). -/
def MAX_QUERY_STATUS_POLLING_ATTEMPTS : Nat := 10

/-- `POLLING_WAIT_INTERVAL` in milliseconds (part_001 line 19). -/
def POLLING_WAIT_INTERVAL : Nat := 3000

/-- `maxAttempts` of the non-resumable variant (integration.js line 272). -/
def integrationMaxAttempts : Nat := 15

/-- How the `while (RUNNING || QUEUED)` loop exited: `suspendedExit` is the
`attempts >= maxAttempts` early return, `terminalExit` carries the first
non-pending status.  In both cases `attempts` is the number of status checks
(equally, of sleeps) performed. -/
inductive PollExit where
  | suspendedExit (attempts : Nat)
  | terminalExit (status : String) (attempts : Nat)
  deriving Repr, DecidableEq

/-- Loop attempt count of an exit. -/
def pollExitAttempts : PollExit → Nat
  | .suspendedExit n => n
  | .terminalExit _ n => n

/-- Whether a status keeps the polling loop running. -/
def isPendingStatus (s : String) : Bool := s = "RUNNING" || s = "QUEUED"

/-- The polling loop body.  Fuel-based structural recursion: with
`attempts + fuel ≥ maxAttempts` (as in `pollLoop`) the fuel-exhausted
fallback is unreachable, because the `attempts >= maxAttempts` return fires
first. -/
def pollLoopGo (r : RemoteQuery) (maxAttempts : Nat) :
    Nat → Nat → String → PollExit
  | fuel, attempts, status =>
    if isPendingStatus status then
      if maxAttempts ≤ attempts then .suspendedExit attempts
      else
        match fuel with
        | 0 => .suspendedExit attempts
        | fuel2 + 1 => pollLoopGo r maxAttempts fuel2 (attempts + 1) (r.state attempts)
    else .terminalExit status attempts

/-- The full polling loop: `queryStatus = 'RUNNING'; attempts = 0;
while (RUNNING || QUEUED) { if (attempts >= max) return suspended; sleep;
poll; attempts++ }`. -/
def pollLoop (r : RemoteQuery) (maxAttempts : Nat) : PollExit :=
  pollLoopGo r maxAttempts maxAttempts 0 "RUNNING"

/-- A materialized result row: column name to raw string value. -/
def Row := List (String × String)
  deriving DecidableEq

/-- Convert the Athena `ResultSet.Rows` (first row = headers) to row
objects.  `zip` models `headers[index]`; ragged responses (a data row longer
than the header row) are not modelled, and no claim exercises them. -/
def materializeRows (rows : List (List String)) : List Row :=
  match rows with
  | [] => []
  | headerRow :: dataRows => dataRows.map fun row => headerRow.zip row

/-- The `{results, complete, queryExecutionId}` object returned by
`executeAthenaQuery` and `checkQueryStatusAndGetResults` (`results` is
`undefined` on the suspension path of `executeAthenaQuery`; the
`executionStats` field is wall-clock-derived and elided). -/
structure QueryResultObj where
  results : Option (List Row)
  complete : Bool
  queryExecutionId : String
  deriving DecidableEq

/-- `executeAthenaQuery` after a successful submission that returned
`queryExecutionId`: poll up to `maxAttempts` times, then suspend with
`complete: false`; on `FAILED`/`CANCELLED` throw; otherwise fetch and
materialize rows with `complete: true`.  Instantiated with
`MAX_QUERY_STATUS_POLLING_ATTEMPTS = 10` (part_001) or
`integrationMaxAttempts = 15` (integration.js). -/
def executeAthenaQuery (r : RemoteQuery) (queryExecutionId : String)
    (maxAttempts : Nat) : Except String QueryResultObj :=
  match pollLoop r maxAttempts with
  | .suspendedExit _ =>
    .ok { results := none, complete := false, queryExecutionId := queryExecutionId }
  | .terminalExit queryStatus attempts =>
    if queryStatus = "FAILED" ∨ queryStatus = "CANCELLED" then
      .error (if queryStatus = "FAILED"
        then "Query failed: " ++ jsShow (r.reason (attempts - 1))
        else "Query was cancelled")
    else
      .ok { results := some (materializeRows r.rows), complete := true,
            queryExecutionId := queryExecutionId }

/-- `checkQueryStatusAndGetResults(queryExecutionId, options)`: one status
check (poll index 0), then the four-way dispatch of part_001 lines 854-945;
an unrecognized status throws `Unknown query status`. -/
def checkQueryStatusAndGetResults (r : RemoteQuery) (queryExecutionId : String) :
    Except String QueryResultObj :=
  let queryStatus := r.state 0
  if queryStatus = "SUCCEEDED" then
    .ok { results := some (materializeRows r.rows), complete := true,
          queryExecutionId := queryExecutionId }
  else if queryStatus = "RUNNING" ∨ queryStatus = "QUEUED" then
    .ok { results := some [], complete := false, queryExecutionId := queryExecutionId }
  else if queryStatus = "FAILED" ∨ queryStatus = "CANCELLED" then
    let errorReason := jsOrOpt (r.reason 0) "Unknown error"
    .error ("Query " ++ jsToLower queryStatus ++ ": " ++ errorReason)
  else
    .error ("Unknown query status: " ++ queryStatus)

/-- The five status values the code recognizes. -/
def knownStatus (s : String) : Bool :=
  s = "QUEUED" || s = "RUNNING" || s = "SUCCEEDED" || s = "FAILED" || s = "CANCELLED"

/-! ## Attribute Projection Engine (`processAttributeOption` lines 533-558,
`parseAttribute` lines 473-510, `getSummaryTags` lines 637-670,
`getDocumentTitle` lines 560-574, `getDetails` lines 576-635)

Accessing a property of a JS `undefined` value throws a `TypeError`;
the embedded consumers therefore return `Except String`. -/

/-- One parsed attribute triple (`attrName` embeds the JS field
`attribute`, a Lean keyword). -/
structure AttributeSpec where
  label : String
  attrName : String
  parser : Option String
  deriving Repr, DecidableEq

/-- `processAttributeOption(attributeOption)`: split on commas, each token
split on colons into 1/2/3 fields; a token with four or more fields matches
no branch, so the `map` callback returns `undefined` (`none`). -/
def processAttributeOption (attributeOption : String) : List (Option AttributeSpec) :=
  (splitOnChar ',' attributeOption.toList).map fun column =>
    match splitOnChar ':' column with
    | [t0] =>
      some { label := String.mk (jsTrimList t0), attrName := String.mk (jsTrimList t0),
             parser := none }
    | [t0, t1] =>
      some { label := String.mk (jsTrimList t0), attrName := String.mk (jsTrimList t1),
             parser := none }
    | [t0, t1, t2] =>
      some { label := String.mk (jsTrimList t0), attrName := String.mk (jsTrimList t2),
             parser := some (jsToLower (String.mk (jsTrimList t1))) }
    | _ => none

/-- lodash `get(result, path)` on a flat text row: a single-segment path is
an association lookup; a multi-segment path would index into a string value
and yields `undefined` (string character indexing is not modelled, and no
claim exercises it). -/
def lodashGet (result : Row) (path : String) : Option String :=
  match splitOnChar '.' path.toList with
  | [k] => List.lookup (String.mk k) result
  | _ => none

/-- `parseAttribute(attribute, parser)`: `null`/`undefined` attribute gives
`''`; a recognized date parser formats a valid parse and otherwise falls
back to the original value; unknown parsers pass the value through.  The
surrounding try/catch makes the JS function total, matching this model
(`attrVal` embeds the JS parameter `attribute`, a Lean keyword). -/
def parseAttribute (L : LuxonFormats) (attrVal : Option String)
    (parser : Option String) : String :=
  match attrVal with
  | none => ""
  | some a =>
    match parser with
    | none => a
    | some tag =>
      let fmt : Option Int → String := fun r =>
        match r with
        | some ms => formatDateTimeShort ms
        | none => a
      if tag = "date-iso" then fmt (L.fromISO a)
      else if tag = "date-http" then fmt (L.fromHTTP a)
      else if tag = "date-rfc2822" then fmt (L.fromRFC2822 a)
      else if tag = "date-sql" then fmt (L.fromSQL a)
      else if tag = "date-seconds" then fmt (fromSecondsJS a)
      else if tag = "date-millis" then fmt (fromMillisJS a)
      else a

/-- The trailing `"<N> result(s)"` count tag. -/
def countTag (results : List Row) : String :=
  toString results.length ++ " " ++ (if results.length = 1 then "result" else "results")

/-- `[...new Set(tags)]`: deduplicate keeping first occurrences in order. -/
def dedupFirst (seen : List String) : List String → List String
  | [] => []
  | x :: xs => if x ∈ seen then dedupFirst seen xs else x :: dedupFirst (x :: seen) xs

/-- The inner `for (i < maxSummaryDocuments && i < results.length)` loop for
one attribute spec.  The loop body reads `attributeObj.attribute`, so when
the spec entry is `undefined` a `TypeError` is thrown iff the loop runs at
least once. -/
def summaryLoop (L : LuxonFormats) (attrObj : Option AttributeSpec)
    (maxSummaryDocuments : Nat) (results : List Row) : Except String (List String) :=
  if maxSummaryDocuments = 0 ∨ results.isEmpty then .ok []
  else
    match attrObj with
    | none => .error "TypeError: Cannot read properties of undefined (reading attribute)"
    | some a =>
      .ok ((results.take maxSummaryDocuments).filterMap fun result =>
        match lodashGet result a.attrName with
        | none => none
        | some tag =>
          if tag = "" then none
          else if a.label ≠ "" then some (a.label ++ ": " ++ parseAttribute L (some tag) a.parser)
          else some (parseAttribute L (some tag) a.parser))

/-- `getSummaryTags(results, options)` of part_001: per-attribute scan of
the first `maxSummaryDocuments` rows, trailing count tag when empty or
truncated, then `[...new Set(tags)]` deduplication. -/
def getSummaryTags (L : LuxonFormats) (cachedSummaryAttributes : Option (List (Option AttributeSpec)))
    (maxSummaryDocuments : Nat) (results : List Row) : Except String (List String) :=
  match cachedSummaryAttributes with
  | none => .ok [countTag results]
  | some attrs =>
    if attrs.isEmpty then .ok [countTag results]
    else do
      let tags ← attrs.foldlM (fun acc attrObj => do
        let inner ← summaryLoop L attrObj maxSummaryDocuments results
        pure (acc ++ inner)) []
      let tags :=
        if tags.length = 0 ∨ results.length > maxSummaryDocuments
        then tags ++ [countTag results] else tags
      pure (dedupFirst [] tags)

/-- `getSummaryTags` of integration.js (lines 549-580): identical scan but
with no deduplication step. -/
def getSummaryTagsNoDedup (L : LuxonFormats)
    (summaryAttributes : Option (List (Option AttributeSpec)))
    (maxSummaryDocuments : Nat) (results : List Row) : Except String (List String) :=
  match summaryAttributes with
  | none => .ok [countTag results]
  | some attrs =>
    if attrs.isEmpty then .ok [countTag results]
    else do
      let tags ← attrs.foldlM (fun acc attrObj => do
        let inner ← summaryLoop L attrObj maxSummaryDocuments results
        pure (acc ++ inner)) []
      pure (if tags.length = 0 ∨ results.length > maxSummaryDocuments
        then tags ++ [countTag results] else tags)

/-- `getDocumentTitle(result)` of part_001: formats the first cached title
attribute; reading `.attribute` of an `undefined` entry throws. -/
def getDocumentTitle (L : LuxonFormats)
    (cachedDocumentTitleAttributes : Option (List (Option AttributeSpec)))
    (result : Row) : Except String (Option String) :=
  match cachedDocumentTitleAttributes with
  | none => .ok none
  | some attrs =>
    match attrs with
    | [] => .ok none
    | attrObj :: _ =>
      match attrObj with
      | none => .error "TypeError: Cannot read properties of undefined (reading attribute)"
      | some a =>
        let parsedValue := parseAttribute L (lodashGet result a.attrName) a.parser
        if a.label ≠ "" then .ok (some (a.label ++ ": " ++ parsedValue))
        else .ok (some parsedValue)

/-- One projected detail document. -/
structure DetailDoc where
  title : Option String
  attributes : List (String × String)
  resultAsString : String
  deriving DecidableEq

/-- `getDetails` result body: raw JSON mode or projected documents. -/
inductive DetailsResults where
  | rawRows (rows : List Row)
  | docs (ds : List DetailDoc)
  deriving DecidableEq

/-- The object returned by part_001 `getDetails` (stats elided). -/
structure DetailsObj where
  showAsJson : Bool
  results : DetailsResults
  complete : Bool
  queryExecutionId : Option String
  deriving DecidableEq

/-- `getDetails(results, options, complete, queryExecutionId, ...)` of
part_001: raw mode without cached detail attributes; otherwise project each
row, dropping empty values and empty documents; `resultAsString` is the
lowercased space-join of the formatted values (row values are strings, so
the JSON branch of the JS is inapplicable).  Reading `.attribute` of an
`undefined` spec entry throws. -/
def getDetails (L : LuxonFormats)
    (cachedDetailAttributes cachedDocumentTitleAttributes : Option (List (Option AttributeSpec)))
    (results : List Row) (complete : Bool) (queryExecutionId : Option String) :
    Except String DetailsObj :=
  match cachedDetailAttributes with
  | none =>
    .ok { showAsJson := true, results := .rawRows results, complete := complete,
          queryExecutionId := queryExecutionId }
  | some attrs =>
    if attrs.isEmpty then
      .ok { showAsJson := true, results := .rawRows results, complete := complete,
            queryExecutionId := queryExecutionId }
    else do
      let details ← results.foldlM (fun acc result => do
        let document ← attrs.foldlM (fun doc attrObj =>
          match attrObj with
          | none => .error "TypeError: Cannot read properties of undefined (reading attribute)"
          | some a =>
            match lodashGet result a.attrName with
            | none => pure doc
            | some v =>
              if v = "" then pure doc
              else pure (doc ++ [(a.label, parseAttribute L (some v) a.parser)])) []
        if document.length > 0 then do
          let title ← getDocumentTitle L cachedDocumentTitleAttributes result
          let resultAsString :=
            String.intercalate " " (document.map fun attr => jsToLower attr.2)
          pure (acc ++ [{ title := title, attributes := document,
                          resultAsString := resultAsString : DetailDoc }])
        else pure acc) []
      pure { showAsJson := false, results := .docs details, complete := complete,
             queryExecutionId := queryExecutionId }

/-! ## Lookup Orchestrator (`doLookup`, part_001 lines 672-748)

Each per-entity search task is a parameter (it wraps `createQuery` +
`executeAthenaQuery`, both remote).  `async.parallelLimit` rejects with the
first task error and resolves with one result per task otherwise; which
error wins under concurrency is scheduling-dependent, modelled as
first-in-list order — the claims only distinguish all-ok from any-error. -/

/-- A JS `Error` as thrown by a task. -/
structure JsErrorObj where
  name : String
  message : String
  deriving Repr, DecidableEq

/-- The serialization-safe error shape produced by `errorToPojo`
(stack trace and AWS metadata elided). -/
structure CleanError where
  name : String
  message : String
  detail : String
  deriving Repr, DecidableEq

/-- `errorToPojo(err, detail)` for an `Error` argument:
`detail: detail || err.message || 'Unexpected error encountered'`. -/
def errorToPojo (err : JsErrorObj) (detail : Option String) : CleanError :=
  { name := err.name, message := err.message,
    detail := jsOrStr (detail.getD "") (jsOrStr err.message "Unexpected error encountered") }

/-- `async.parallelLimit(tasks, 10)`: first error aborts, otherwise all
results in task order. -/
def parallelLimitModel {α : Type} : List (Except JsErrorObj α) → Except JsErrorObj (List α)
  | [] => .ok []
  | t :: ts =>
    match t with
    | .error e => .error e
    | .ok a =>
      match parallelLimitModel ts with
      | .error e => .error e
      | .ok rest => .ok (a :: rest)

/-- The fan-out/collect core of `doLookup`: run one task per entity; any
task error is normalized by `errorToPojo(err, 'Error running Athena SQL
query')` and returned through the callback error slot with no results. -/
def doLookup {Entity α : Type} (task : Entity → Except JsErrorObj α)
    (entities : List Entity) : Except CleanError (List α) :=
  match parallelLimitModel (entities.map task) with
  | .error lookupError => .error (errorToPojo lookupError (some "Error running Athena SQL query"))
  | .ok lookupResults => .ok lookupResults

/-! # Theorems -/

/-! ## List helpers -/

theorem length_dropWhile_le (p : Char → Bool) (l : List Char) :
    (l.dropWhile p).length ≤ l.length := by
  induction l with
  | nil => simp
  | cons c rest ih =>
    rw [List.dropWhile_cons]
    split
    · exact Nat.le_trans ih (Nat.le_succ _)
    · simp

/-! ## Type-Hint Parser lemmas -/

theorem scanGo_nil (fuel : Nat) : scanGo fuel [] = ([], []) := by
  cases fuel <;> rfl

theorem count_qm_dropWhile_word (l : List Char) :
    (l.dropWhile isWordChar).count '?' = l.count ('?' : Char) := by
  conv_rhs => rw [← List.takeWhile_append_dropWhile isWordChar l]
  rw [List.count_append]
  have h0 : (l.takeWhile isWordChar).count '?' = 0 := by
    rw [List.count_eq_zero]
    intro hmem
    have := List.mem_takeWhile_imp hmem
    simp [isWordChar] at this
  omega

/-- With enough fuel, the scan produces one hint per `?` character. -/
theorem scanGo_snd_length : ∀ (fuel : Nat) (l : List Char), l.length ≤ fuel →
    (scanGo fuel l).2.length = l.count ('?' : Char) := by
  intro fuel
  induction fuel with
  | zero =>
    intro l hl
    have : l = [] := List.eq_nil_of_length_eq_zero (Nat.le_zero.mp hl)
    subst this
    simp [scanGo]
  | succ fuel ih =>
    intro l hl
    rcases l with _ | ⟨c, rest⟩
    · simp [scanGo]
    · by_cases hc : c = '?'
      · subst hc
        rcases rest with _ | ⟨x, rest1⟩
        · simp [scanGo, scanGo_nil]
        · by_cases hx : x = ':'
          · subst hx
            rcases rest1 with _ | ⟨d, rest2⟩
            · have hlen : ([':'] : List Char).length ≤ fuel := by
                simp only [List.length_cons] at hl ⊢
                omega
              have hrec := ih _ hlen
              have h2 : (scanGo fuel [':']).2 = [] := by
                rw [← List.length_eq_zero]
                rw [hrec]
                decide
              simp [scanGo, h2]
            · by_cases hd : isWordChar d
              · simp only [scanGo, hd, if_true]
                have hlen : ((d :: rest2).dropWhile isWordChar).length ≤ fuel := by
                  have h1 := length_dropWhile_le isWordChar (d :: rest2)
                  simp only [List.length_cons] at h1 hl ⊢
                  omega
                have := ih _ hlen
                simp only [List.length_cons, this, count_qm_dropWhile_word]
                simp [List.count_cons]
              · have hlen : (':' :: d :: rest2).length ≤ fuel := by
                  simp only [List.length_cons] at hl ⊢
                  omega
                have hrec := ih _ hlen
                simp only [scanGo, if_neg hd]
                simp [hrec, List.count_cons]
          · have hlen : (x :: rest1).length ≤ fuel := by
              simp only [List.length_cons] at hl ⊢
              omega
            have hrec := ih _ hlen
            simp [scanGo, hx, hrec, List.count_cons]
      · have hlen : rest.length ≤ fuel := by
          simp only [List.length_cons] at hl
          omega
        have hrec := ih _ hlen
        simp [scanGo, hc, hrec, List.count_cons]

/-- The canonical output contains exactly one `?` per emitted hint. -/
theorem scanGo_fst_count : ∀ (fuel : Nat) (l : List Char), l.length ≤ fuel →
    (scanGo fuel l).1.count '?' = (scanGo fuel l).2.length := by
  intro fuel
  induction fuel with
  | zero =>
    intro l hl
    have : l = [] := List.eq_nil_of_length_eq_zero (Nat.le_zero.mp hl)
    subst this
    simp [scanGo]
  | succ fuel ih =>
    intro l hl
    rcases l with _ | ⟨c, rest⟩
    · simp [scanGo]
    · by_cases hc : c = '?'
      · subst hc
        rcases rest with _ | ⟨x, rest1⟩
        · simp [scanGo, scanGo_nil]
        · by_cases hx : x = ':'
          · subst hx
            rcases rest1 with _ | ⟨d, rest2⟩
            · have hlen : ([':'] : List Char).length ≤ fuel := by
                simp only [List.length_cons] at hl ⊢
                omega
              have hrec := ih _ hlen
              simp [scanGo, hrec, List.count_cons]
            · by_cases hd : isWordChar d
              · have hlen : ((d :: rest2).dropWhile isWordChar).length ≤ fuel := by
                  have h1 := length_dropWhile_le isWordChar (d :: rest2)
                  simp only [List.length_cons] at h1 hl ⊢
                  omega
                have hrec := ih _ hlen
                simp only [scanGo, if_pos hd]
                simp [hrec, List.count_cons]
              · have hlen : (':' :: d :: rest2).length ≤ fuel := by
                  simp only [List.length_cons] at hl ⊢
                  omega
                have hrec := ih _ hlen
                simp only [scanGo, if_neg hd]
                simp [hrec, List.count_cons]
          · have hlen : (x :: rest1).length ≤ fuel := by
              simp only [List.length_cons] at hl ⊢
              omega
            have hrec := ih _ hlen
            simp [scanGo, hx, hrec, List.count_cons]
      · have hlen : rest.length ≤ fuel := by
          simp only [List.length_cons] at hl
          omega
        have hrec := ih _ hlen
        simp [scanGo, hc, hrec, List.count_cons]

/-- On an input whose placeholders are all untagged, the scan is the
identity on the template and hints are all defaulted. -/
theorem scanGo_noTag : ∀ (fuel : Nat) (l : List Char), l.length ≤ fuel →
    noTaggedPlaceholder l = true →
    scanGo fuel l = (l, List.replicate (l.count '?') "string") := by
  intro fuel
  induction fuel with
  | zero =>
    intro l hl _
    have : l = [] := List.eq_nil_of_length_eq_zero (Nat.le_zero.mp hl)
    subst this
    simp [scanGo]
  | succ fuel ih =>
    intro l hl hnt
    rcases l with _ | ⟨c, rest⟩
    · simp [scanGo]
    · by_cases hc : c = '?'
      · subst hc
        rcases rest with _ | ⟨x, rest1⟩
        · simp [scanGo, scanGo_nil, List.count_cons]
        · by_cases hx : x = ':'
          · subst hx
            rcases rest1 with _ | ⟨d, rest2⟩
            · have hlen : ([':'] : List Char).length ≤ fuel := by
                simp only [List.length_cons] at hl ⊢
                omega
              have hnt1 : noTaggedPlaceholder [':'] = true := by
                simp [noTaggedPlaceholder]
              have hrec := ih _ hlen hnt1
              simp [scanGo, hrec, List.count_cons, List.replicate_succ]
            · by_cases hd : isWordChar d
              · exfalso
                simp [noTaggedPlaceholder, hd] at hnt
              · have hlen : (':' :: d :: rest2).length ≤ fuel := by
                  simp only [List.length_cons] at hl ⊢
                  omega
                have hnt1 : noTaggedPlaceholder (':' :: d :: rest2) = true := by
                  simp [noTaggedPlaceholder, hd] at hnt
                  simp [noTaggedPlaceholder, hnt]
                have hrec := ih _ hlen hnt1
                simp only [scanGo, if_neg hd]
                simp [hrec, List.count_cons, List.replicate_succ]
          · have hlen : (x :: rest1).length ≤ fuel := by
              simp only [List.length_cons] at hl ⊢
              omega
            have hnt1 : noTaggedPlaceholder (x :: rest1) = true := by
              simpa [noTaggedPlaceholder, hx] using hnt
            have hrec := ih _ hlen hnt1
            simp [scanGo, hx, hrec, List.count_cons, List.replicate_succ]
      · have hlen : rest.length ≤ fuel := by
          simp only [List.length_cons] at hl
          omega
        have hnt1 : noTaggedPlaceholder rest = true := by
          simpa [noTaggedPlaceholder, hc] using hnt
        have hrec := ih _ hlen hnt1
        simp [scanGo, hc, hrec, List.count_cons]

/-- Hint count of `parseTypeHints` equals the `?` count of the template. -/
theorem parseTypeHints_length (q : String) :
    (parseTypeHints q).2.length = q.toList.count '?' := by
  simp [parseTypeHints, scanPlaceholders]
  exact scanGo_snd_length _ _ (Nat.le_refl _)

/-- The canonical template has the same number of `?` as there are hints. -/
theorem parseTypeHints_canonical_count (q : String) :
    (parseTypeHints q).1.toList.count '?' = (parseTypeHints q).2.length := by
  simp [parseTypeHints, scanPlaceholders]
  exact scanGo_fst_count _ _ (Nat.le_refl _)

/-! ## Claim C8 -/

/-- Claim C8 (amended): for every template with K placeholders,
`parseTypeHints` returns exactly K type hints indexed 0..K-1 in source order
(illustrated on a mixed template, where an untagged placeholder defaults to
`string`), and the canonical template again contains K placeholders, so
re-parsing yields the same hint count; on any template whose placeholders
are all untagged the parse leaves the template unchanged with all hints
defaulted to `string`, and in particular re-canonicalization is idempotent
whenever the canonical template has no `?` immediately followed by a
`:`-word residue.  (Unconditional idempotence fails, see the
counterexample.) -/
theorem claim_C8 (q : String) :
    (parseTypeHints q).2.length = q.toList.count '?'
    ∧ (parseTypeHints q).2.map TypeHint.index = List.range (q.toList.count '?')
    ∧ (parseTypeHints (parseTypeHints q).1).2.length = (parseTypeHints q).2.length
    ∧ (parseTypeHints "a?b?:int c").2 = [⟨0, "string"⟩, ⟨1, "int"⟩]
    ∧ (noTaggedPlaceholder q.toList = true →
        (parseTypeHints q).1 = q ∧ ∀ h ∈ (parseTypeHints q).2, h.type = "string")
    ∧ (noTaggedPlaceholder (parseTypeHints q).1.toList = true →
        (parseTypeHints (parseTypeHints q).1).1 = (parseTypeHints q).1) := by
  refine ⟨parseTypeHints_length q, ?_, ?_, by decide, ?_, ?_⟩
  · rw [← parseTypeHints_length q]
    simp [parseTypeHints, List.map_map]
    have : (TypeHint.index ∘ fun p : Nat × String => TypeHint.mk p.1 p.2) = Prod.fst := rfl
    rw [this, List.enum_map_fst]
  · rw [parseTypeHints_length (parseTypeHints q).1, parseTypeHints_canonical_count]
  · intro hnt
    have hscan := scanGo_noTag q.toList.length q.toList (Nat.le_refl _) hnt
    constructor
    · show String.mk (scanGo q.toList.length q.toList).1 = q
      rw [hscan]
      rfl
    · intro h hmem
      simp only [parseTypeHints, scanPlaceholders, hscan] at hmem
      rw [List.mem_map] at hmem
      obtain ⟨p, hp, hph⟩ := hmem
      have := List.mem_enum hp
      obtain ⟨hlt, heq⟩ := this
      rw [List.getElem_replicate] at heq
      rw [← hph]
      simpa using heq
  · intro hnt
    have hscan := scanGo_noTag (parseTypeHints q).1.toList.length (parseTypeHints q).1.toList
      (Nat.le_refl _) hnt
    show String.mk (scanGo (parseTypeHints q).1.toList.length (parseTypeHints q).1.toList).1 =
      (parseTypeHints q).1
    rw [hscan]
    rfl

/-- Claim C8 counterexample: on the template `?:int:foo` the canonical
output is `?:foo`, and re-parsing that canonical template yields `?` — the
claimed idempotence of canonicalization fails. -/
theorem claim_C8_counterexample :
    (parseTypeHints "?:int:foo").1 = "?:foo"
    ∧ (parseTypeHints (parseTypeHints "?:int:foo").1).1 = "?"
    ∧ (parseTypeHints (parseTypeHints "?:int:foo").1).1 ≠ (parseTypeHints "?:int:foo").1 := by
  refine ⟨by decide, by decide, by decide⟩

/-- Witness for claim C8: the amended theorem applied at the template
`a?b?:int c`, discharging the untagged-canonical hypotheses concretely. -/
theorem claim_C8_witness :
    noTaggedPlaceholder (parseTypeHints "a?b?:int c").1.toList = true
    ∧ (parseTypeHints (parseTypeHints "a?b?:int c").1).1 = (parseTypeHints "a?b?:int c").1 :=
  ⟨by decide, (claim_C8 "a?b?:int c").2.2.2.2.2 (by decide)⟩
/-! ## Execution State Machine lemmas (claims C1, C3, C4) -/

theorem pollLoopGo_attempts_le (r : RemoteQuery) (maxAttempts : Nat) :
    ∀ (fuel attempts : Nat) (status : String), attempts ≤ maxAttempts →
    pollExitAttempts (pollLoopGo r maxAttempts fuel attempts status) ≤ maxAttempts := by
  intro fuel
  induction fuel with
  | zero =>
    intro attempts status h
    simp only [pollLoopGo]
    split
    · split
      · simpa [pollExitAttempts]
      · simpa [pollExitAttempts]
    · simpa [pollExitAttempts]
  | succ fuel ih =>
    intro attempts status h
    simp only [pollLoopGo]
    split
    · split
      · simpa [pollExitAttempts]
      · rename_i hpend hlt
        exact ih (attempts + 1) (r.state attempts) (by omega)
    · simpa [pollExitAttempts]

theorem pollLoopGo_pending (r : RemoteQuery) (maxAttempts : Nat)
    (hp : ∀ i, i < maxAttempts → isPendingStatus (r.state i) = true) :
    ∀ (fuel attempts : Nat) (status : String), isPendingStatus status = true →
    ∃ k, pollLoopGo r maxAttempts fuel attempts status = .suspendedExit k := by
  intro fuel
  induction fuel with
  | zero =>
    intro attempts status hs
    simp only [pollLoopGo, hs, if_true]
    split
    · exact ⟨attempts, rfl⟩
    · exact ⟨attempts, rfl⟩
  | succ fuel ih =>
    intro attempts status hs
    simp only [pollLoopGo, hs, if_true]
    split
    · exact ⟨attempts, rfl⟩
    · rename_i hlt
      exact ih (attempts + 1) (r.state attempts) (hp attempts (by omega))
/-- Claim C1: the polling loop performs at most the fixed maximum number of
status checks — `MAX_QUERY_STATUS_POLLING_ATTEMPTS = 10` in the resumable
part_001 variant, 15 in integration.js — with one `POLLING_WAIT_INTERVAL`
sleep preceding each check (one sleep and one check per loop iteration, both
counted by `attempts`), and when the budget is exhausted while the remote
state is still QUEUED/RUNNING it returns a suspended result object with
`complete: false` whose `queryExecutionId` is the submission handle, rather
than throwing or polling further. -/
theorem claim_C1 (r : RemoteQuery) (queryExecutionId : String) :
    pollExitAttempts (pollLoop r MAX_QUERY_STATUS_POLLING_ATTEMPTS) ≤
      MAX_QUERY_STATUS_POLLING_ATTEMPTS
    ∧ pollExitAttempts (pollLoop r integrationMaxAttempts) ≤ integrationMaxAttempts
    ∧ ((∀ i, i < MAX_QUERY_STATUS_POLLING_ATTEMPTS → isPendingStatus (r.state i) = true) →
        executeAthenaQuery r queryExecutionId MAX_QUERY_STATUS_POLLING_ATTEMPTS =
          .ok { results := none, complete := false, queryExecutionId := queryExecutionId })
    ∧ ((∀ i, i < integrationMaxAttempts → isPendingStatus (r.state i) = true) →
        executeAthenaQuery r queryExecutionId integrationMaxAttempts =
          .ok { results := none, complete := false, queryExecutionId := queryExecutionId }) := by
  refine ⟨?_, ?_, ?_, ?_⟩
  · exact pollLoopGo_attempts_le r _ _ 0 "RUNNING" (Nat.zero_le _)
  · exact pollLoopGo_attempts_le r _ _ 0 "RUNNING" (Nat.zero_le _)
  · intro hp
    obtain ⟨k, hk⟩ :=
      pollLoopGo_pending r _ hp MAX_QUERY_STATUS_POLLING_ATTEMPTS 0 "RUNNING" (by decide)
    simp [executeAthenaQuery, pollLoop, hk]
  · intro hp
    obtain ⟨k, hk⟩ := pollLoopGo_pending r _ hp integrationMaxAttempts 0 "RUNNING" (by decide)
    simp [executeAthenaQuery, pollLoop, hk]

/-- Witness for claim C1: a remote that stays RUNNING forever suspends with
the submission handle in both variants. -/
theorem claim_C1_witness :
    executeAthenaQuery ⟨fun _ => "RUNNING", fun _ => none, []⟩ "qid"
      MAX_QUERY_STATUS_POLLING_ATTEMPTS =
      .ok { results := none, complete := false, queryExecutionId := "qid" }
    ∧ executeAthenaQuery ⟨fun _ => "RUNNING", fun _ => none, []⟩ "qid" integrationMaxAttempts =
      .ok { results := none, complete := false, queryExecutionId := "qid" } :=
  ⟨(claim_C1 ⟨fun _ => "RUNNING", fun _ => none, []⟩ "qid").2.2.1 (by decide),
   (claim_C1 ⟨fun _ => "RUNNING", fun _ => none, []⟩ "qid").2.2.2 (by decide)⟩
/-- Claim C3 (amended): a status outside QUEUED/RUNNING/SUCCEEDED/FAILED/
CANCELLED is fatal only in the resumption path: `checkQueryStatusAndGetResults`
throws `Unknown query status: <status>`, but in the fresh-execution polling
loop (`executeAthenaQuery`, both variants) such a status merely exits the
`while` loop and is then treated like success — results are fetched and a
`complete: true` object is returned, silently ignoring the unknown state. -/
theorem claim_C3_amended (r : RemoteQuery) (queryExecutionId : String)
    (h : knownStatus (r.state 0) = false) :
    checkQueryStatusAndGetResults r queryExecutionId =
      .error ("Unknown query status: " ++ r.state 0)
    ∧ executeAthenaQuery r queryExecutionId MAX_QUERY_STATUS_POLLING_ATTEMPTS =
        .ok { results := some (materializeRows r.rows), complete := true,
              queryExecutionId := queryExecutionId }
    ∧ executeAthenaQuery r queryExecutionId integrationMaxAttempts =
        .ok { results := some (materializeRows r.rows), complete := true,
              queryExecutionId := queryExecutionId } := by
  simp only [knownStatus, Bool.or_eq_false_iff, decide_eq_false_iff_not] at h
  obtain ⟨⟨⟨⟨h1, h2⟩, h3⟩, h4⟩, h5⟩ := h
  refine ⟨?_, ?_, ?_⟩
  · simp [checkQueryStatusAndGetResults, h1, h2, h3, h4, h5]
  · have hterm : pollLoop r MAX_QUERY_STATUS_POLLING_ATTEMPTS = .terminalExit (r.state 0) 1 := by
      simp [pollLoop, MAX_QUERY_STATUS_POLLING_ATTEMPTS, pollLoopGo, isPendingStatus, h1, h2]
    simp [executeAthenaQuery, hterm, h4, h5]
  · have hterm : pollLoop r integrationMaxAttempts = .terminalExit (r.state 0) 1 := by
      simp [pollLoop, integrationMaxAttempts, pollLoopGo, isPendingStatus, h1, h2]
    simp [executeAthenaQuery, hterm, h4, h5]
/-- Claim C3 counterexample: with a remote reporting the unrecognized state
`MYSTERY` on the first poll, `executeAthenaQuery` does not fail — it returns
a successful `complete: true` result, so the claim that an unknown state is
fatal in the fresh-execution polling loop is false. -/
theorem claim_C3_counterexample :
    executeAthenaQuery ⟨fun _ => "MYSTERY", fun _ => none, []⟩ "qid"
      MAX_QUERY_STATUS_POLLING_ATTEMPTS =
      .ok { results := some [], complete := true, queryExecutionId := "qid" }
    ∧ ∀ msg, executeAthenaQuery ⟨fun _ => "MYSTERY", fun _ => none, []⟩ "qid"
        MAX_QUERY_STATUS_POLLING_ATTEMPTS ≠ .error msg := by
  have h : executeAthenaQuery ⟨fun _ => "MYSTERY", fun _ => none, []⟩ "qid"
      MAX_QUERY_STATUS_POLLING_ATTEMPTS =
      .ok { results := some [], complete := true, queryExecutionId := "qid" } := by decide
  refine ⟨h, ?_⟩
  intro msg hmsg
  rw [h] at hmsg
  exact Except.noConfusion hmsg

/-- Witness for claim C3: the amended theorem applied to the `MYSTERY`
remote. -/
theorem claim_C3_witness :
    checkQueryStatusAndGetResults ⟨fun _ => "MYSTERY", fun _ => none, []⟩ "qid" =
      .error "Unknown query status: MYSTERY" :=
  (claim_C3_amended ⟨fun _ => "MYSTERY", fun _ => none, []⟩ "qid" (by decide)).1

/-- Claim C4 (amended): when polling reaches FAILED, `executeAthenaQuery`
throws `Query failed: <StateChangeReason>`, carrying the remote reason; but
when it reaches CANCELLED it throws the fixed message `Query was cancelled`
without the reason.  Only the resumption path
(`checkQueryStatusAndGetResults`) carries the reason in both cases. -/
theorem claim_C4_amended (r : RemoteQuery) (queryExecutionId rr : String)
    (hr : r.reason 0 = some rr) :
    (r.state 0 = "FAILED" →
      executeAthenaQuery r queryExecutionId MAX_QUERY_STATUS_POLLING_ATTEMPTS =
        .error ("Query failed: " ++ rr)
      ∧ executeAthenaQuery r queryExecutionId integrationMaxAttempts =
        .error ("Query failed: " ++ rr)
      ∧ checkQueryStatusAndGetResults r queryExecutionId =
        .error ("Query failed: " ++ jsOrStr rr "Unknown error"))
    ∧ (r.state 0 = "CANCELLED" →
      executeAthenaQuery r queryExecutionId MAX_QUERY_STATUS_POLLING_ATTEMPTS =
        .error "Query was cancelled"
      ∧ executeAthenaQuery r queryExecutionId integrationMaxAttempts =
        .error "Query was cancelled"
      ∧ checkQueryStatusAndGetResults r queryExecutionId =
        .error ("Query cancelled: " ++ jsOrStr rr "Unknown error")) := by
  constructor
  · intro hs
    have hterm10 : pollLoop r MAX_QUERY_STATUS_POLLING_ATTEMPTS = .terminalExit (r.state 0) 1 := by
      simp [pollLoop, MAX_QUERY_STATUS_POLLING_ATTEMPTS, pollLoopGo, isPendingStatus, hs]
    have hterm15 : pollLoop r integrationMaxAttempts = .terminalExit (r.state 0) 1 := by
      simp [pollLoop, integrationMaxAttempts, pollLoopGo, isPendingStatus, hs]
    refine ⟨?_, ?_, ?_⟩
    · simp [executeAthenaQuery, hterm10, hs, hr, jsShow]
    · simp [executeAthenaQuery, hterm15, hs, hr, jsShow]
    · simp [checkQueryStatusAndGetResults, hs, hr, jsOrOpt, jsOrStr, jsToLower]
  · intro hs
    have hterm10 : pollLoop r MAX_QUERY_STATUS_POLLING_ATTEMPTS = .terminalExit (r.state 0) 1 := by
      simp [pollLoop, MAX_QUERY_STATUS_POLLING_ATTEMPTS, pollLoopGo, isPendingStatus, hs]
    have hterm15 : pollLoop r integrationMaxAttempts = .terminalExit (r.state 0) 1 := by
      simp [pollLoop, integrationMaxAttempts, pollLoopGo, isPendingStatus, hs]
    refine ⟨?_, ?_, ?_⟩
    · simp [executeAthenaQuery, hterm10, hs]
    · simp [executeAthenaQuery, hterm15, hs]
    · simp [checkQueryStatusAndGetResults, hs, hr, jsOrOpt, jsOrStr, jsToLower]

/-- Claim C4 counterexample: a query cancelled with StateChangeReason `BOOM`
makes `executeAthenaQuery` throw the fixed message `Query was cancelled`,
which does not contain the remote-provided reason — the claim that the
CANCELLED error message carries the StateChangeReason is false. -/
theorem claim_C4_counterexample :
    executeAthenaQuery ⟨fun _ => "CANCELLED", fun _ => some "BOOM", []⟩ "qid"
      MAX_QUERY_STATUS_POLLING_ATTEMPTS = .error "Query was cancelled"
    ∧ containsStr "Query was cancelled" "BOOM" = false := by
  exact ⟨by decide, by decide⟩

/-- Witness for claim C4: the amended theorem applied to a FAILED remote and
a CANCELLED remote, each with reason `BOOM`. -/
theorem claim_C4_witness :
    executeAthenaQuery ⟨fun _ => "FAILED", fun _ => some "BOOM", []⟩ "qid"
      MAX_QUERY_STATUS_POLLING_ATTEMPTS = .error "Query failed: BOOM"
    ∧ checkQueryStatusAndGetResults ⟨fun _ => "CANCELLED", fun _ => some "BOOM", []⟩ "qid" =
      .error "Query cancelled: BOOM" :=
  ⟨((claim_C4_amended ⟨fun _ => "FAILED", fun _ => some "BOOM", []⟩ "qid" "BOOM" rfl).1 rfl).1,
   ((claim_C4_amended ⟨fun _ => "CANCELLED", fun _ => some "BOOM", []⟩ "qid" "BOOM" rfl).2 rfl).2.2⟩
/-! ## Prepared Statement Manager lemmas (claim C2) -/

theorem ensure_cached (statementName q : String) (s : PSState) (h : String)
    (hq : s.currentQuery = some (parseTypeHints q).1)
    (hh : s.currentPreparedStatement = some h) :
    ensurePreparedStatement statementName q s = (h, s, []) := by
  simp [ensurePreparedStatement, hq, hh]

theorem ensureSeq_replicate_cached (statementName q : String) (s : PSState) (h : String)
    (hq : s.currentQuery = some (parseTypeHints q).1)
    (hh : s.currentPreparedStatement = some h) :
    ∀ m, ensureSeq statementName s (List.replicate m q) = (s, []) := by
  intro m
  induction m with
  | zero => rfl
  | succ m ih =>
    rw [List.replicate_succ]
    simp [ensureSeq, ensure_cached statementName q s h hq hh, ih]

theorem ensure_fresh (statementName q : String) (b : Bool) :
    ensurePreparedStatement statementName q ⟨none, none, b⟩ =
      (statementName, ⟨some (parseTypeHints q).1, some statementName, true⟩,
        [.getPS, if b then .updatePS else .createPS]) := by
  cases b <;> simp [ensurePreparedStatement]

/-- Claim C2: starting from a reset cache, the first
`ensurePreparedStatement` call with template `q` issues exactly one
existence check followed by exactly one update (when the statement already
exists remotely) or one create (when it does not); every subsequent call
with the same template returns the cached handle with no remote call, so a
run of `n+1` same-template calls issues exactly one remote create-or-update
in total; and changing the template afterwards issues exactly one existence
check plus one update — never a create (and the call vocabulary has no
delete at all). -/
theorem claim_C2 (statementName q q2 : String) (b : Bool) (n : Nat)
    (hq2 : (parseTypeHints q2).1 ≠ (parseTypeHints q).1) :
    (ensurePreparedStatement statementName q ⟨none, none, b⟩).2.2 =
      [.getPS, if b then .updatePS else .createPS]
    ∧ (ensurePreparedStatement statementName q ⟨none, none, b⟩).1 = statementName
    ∧ countCreateUpdate
        (ensureSeq statementName ⟨none, none, b⟩ (List.replicate (n + 1) q)).2 = 1
    ∧ (∀ m, (ensureSeq statementName
          (ensurePreparedStatement statementName q ⟨none, none, b⟩).2.1
          (List.replicate m q)).2 = [])
    ∧ (ensurePreparedStatement statementName q2
        (ensurePreparedStatement statementName q ⟨none, none, b⟩).2.1).2.2 =
      [.getPS, .updatePS] := by
  have hfresh := ensure_fresh statementName q b
  have hcached := ensureSeq_replicate_cached statementName q
    ⟨some (parseTypeHints q).1, some statementName, true⟩ statementName rfl rfl
  refine ⟨by rw [hfresh], by rw [hfresh], ?_, ?_, ?_⟩
  · rw [List.replicate_succ]
    simp only [ensureSeq, hfresh]
    rw [hcached n]
    cases b <;> simp [countCreateUpdate]
  · intro m
    rw [hfresh]
    rw [hcached m]
  · rw [hfresh]
    simp [ensurePreparedStatement, hq2.symm]

/-- Witness for claim C2: concrete templates `select ?:int` then `select ?
where x = ?` against an initially absent remote statement. -/
theorem claim_C2_witness :
    (parseTypeHints "select ? where x = ?").1 ≠ (parseTypeHints "select ?:int").1
    ∧ countCreateUpdate
        (ensureSeq "nm" ⟨none, none, false⟩ (List.replicate 3 "select ?:int")).2 = 1
    ∧ (ensurePreparedStatement "nm" "select ? where x = ?"
        (ensurePreparedStatement "nm" "select ?:int" ⟨none, none, false⟩).2.1).2.2 =
      [.getPS, .updatePS] :=
  ⟨by decide,
   (claim_C2 "nm" "select ?:int" "select ? where x = ?" false 2 (by decide)).2.2.1,
   (claim_C2 "nm" "select ?:int" "select ? where x = ?" false 2 (by decide)).2.2.2.2⟩
/-! ## Lookup Orchestrator lemmas (claim C7) -/

theorem parallelLimit_all_ok {α : Type} (tasks : List (Except JsErrorObj α))
    (h : ∀ t ∈ tasks, ∃ a, t = .ok a) :
    ∃ rs, parallelLimitModel tasks = .ok rs ∧ tasks = rs.map Except.ok := by
  induction tasks with
  | nil => exact ⟨[], rfl, rfl⟩
  | cons t ts ih =>
    obtain ⟨a, ha⟩ := h t (List.mem_cons_self t ts)
    obtain ⟨rs, hrs, hmap⟩ := ih fun u hu => h u (List.mem_cons_of_mem t hu)
    subst ha
    refine ⟨a :: rs, ?_, ?_⟩
    · simp [parallelLimitModel, hrs]
    · simp [hmap]

theorem parallelLimit_any_err {α : Type} (tasks : List (Except JsErrorObj α))
    (h : ∃ t ∈ tasks, ∃ e, t = .error e) :
    ∃ e, parallelLimitModel tasks = .error e ∧ Except.error e ∈ tasks := by
  induction tasks with
  | nil => simp at h
  | cons t ts ih =>
    match t with
    | .error e => exact ⟨e, rfl, List.mem_cons_self _ _⟩
    | .ok a =>
      have hts : ∃ u ∈ ts, ∃ e, u = .error e := by
        obtain ⟨u, hu, e, he⟩ := h
        rcases List.mem_cons.mp hu with h1 | h1
        · rw [h1] at he
          exact absurd he (by simp)
        · exact ⟨u, h1, e, he⟩
      obtain ⟨e, he, hmem⟩ := ih hts
      refine ⟨e, ?_, List.mem_cons_of_mem _ hmem⟩
      simp [parallelLimitModel, he]

/-- Claim C7: if any per-entity task throws, `doLookup` delivers a single
`errorToPojo`-normalized error and no per-entity results (the error slot of
the callback excludes the result slot); if no task throws, it delivers
exactly one result per entity, in entity order. -/
theorem claim_C7 {Entity α : Type} (task : Entity → Except JsErrorObj α)
    (entities : List Entity) :
    ((∃ ent ∈ entities, ∃ e, task ent = .error e) →
      ∃ e, Except.error e ∈ entities.map task ∧
        doLookup task entities = .error (errorToPojo e (some "Error running Athena SQL query")))
    ∧ ((∀ ent ∈ entities, ∃ a, task ent = .ok a) →
      ∃ rs, doLookup task entities = .ok rs ∧ rs.length = entities.length ∧
        entities.map task = rs.map Except.ok) := by
  constructor
  · intro h
    have h2 : ∃ t ∈ entities.map task, ∃ e, t = .error e := by
      obtain ⟨ent, hent, e, he⟩ := h
      exact ⟨task ent, List.mem_map_of_mem task hent, e, he⟩
    obtain ⟨e, he, hmem⟩ := parallelLimit_any_err (entities.map task) h2
    exact ⟨e, hmem, by simp [doLookup, he]⟩
  · intro h
    have h2 : ∀ t ∈ entities.map task, ∃ a, t = .ok a := by
      intro t ht
      obtain ⟨ent, hent, rfl⟩ := List.mem_map.mp ht
      exact h ent hent
    obtain ⟨rs, hrs, hmap⟩ := parallelLimit_all_ok (entities.map task) h2
    refine ⟨rs, by simp [doLookup, hrs], ?_, hmap⟩
    have := congrArg List.length hmap
    simpa using this.symm

/-- Witness for claim C7: a batch of three entities where the middle task
throws fails as a whole with the normalized error; the same batch with no
failing task yields one result per entity. -/
theorem claim_C7_witness :
    (∃ e, Except.error e ∈ [0, 1, 2].map
        (fun n : Nat => if n = 1 then Except.error (⟨"Error", "boom"⟩ : JsErrorObj) else .ok n) ∧
      doLookup (fun n : Nat => if n = 1 then Except.error (⟨"Error", "boom"⟩ : JsErrorObj) else .ok n)
          [0, 1, 2] =
        .error (errorToPojo e (some "Error running Athena SQL query")))
    ∧ (∃ rs, doLookup (fun n : Nat => (Except.ok (n + 1) : Except JsErrorObj Nat)) [0, 1, 2] =
          .ok rs ∧
        rs.length = ([0, 1, 2] : List Nat).length ∧
        ([0, 1, 2] : List Nat).map (fun n => (Except.ok (n + 1) : Except JsErrorObj Nat)) =
          rs.map Except.ok) :=
  ⟨(claim_C7 (fun n : Nat => if n = 1 then Except.error (⟨"Error", "boom"⟩ : JsErrorObj) else .ok n)
      [0, 1, 2]).1 ⟨1, by decide, ⟨"Error", "boom"⟩, by decide⟩,
   (claim_C7 (fun n : Nat => (Except.ok (n + 1) : Except JsErrorObj Nat)) [0, 1, 2]).2
      (fun ent _ => ⟨ent + 1, rfl⟩)⟩
/-! ## Parameter Binder lemmas (claim C5) -/

theorem digitChar_isDigit (d : Nat) (hd : d < 10) : (Nat.digitChar d).isDigit = true := by
  interval_cases d <;> decide

theorem natToDecRev_digits : ∀ (fuel n : Nat), (natToDecRev fuel n).all Char.isDigit = true := by
  intro fuel
  induction fuel with
  | zero => intro n; rfl
  | succ fuel ih =>
    intro n
    by_cases hn : n = 0
    · simp [natToDecRev, hn]
    · simp only [natToDecRev, hn, if_false, List.all_cons, Bool.and_eq_true]
      exact ⟨digitChar_isDigit _ (Nat.mod_lt _ (by omega)), ih _⟩

theorem natToDecimal_digits (n : Nat) :
    (natToDecimal n).toList ≠ [] ∧ (natToDecimal n).toList.all Char.isDigit = true := by
  by_cases hn : n = 0
  · subst hn
    constructor <;> decide
  · have hne : (natToDecRev n n) ≠ [] := by
      rcases n with _ | m
      · exact absurd rfl hn
      · simp [natToDecRev]
    constructor
    · show (natToDecimal n).toList ≠ []
      simp only [natToDecimal, hn, if_false]
      show (natToDecRev n n).reverse ≠ []
      simpa using hne
    · simp only [natToDecimal, hn, if_false]
      show (natToDecRev n n).reverse.all Char.isDigit = true
      rw [List.all_reverse]
      exact natToDecRev_digits n n

theorem isIntLiteral_mk_cons (c : Char) (ds : List Char) :
    isIntLiteral (String.mk (c :: ds)) =
      if c = '-' then !ds.isEmpty && ds.all Char.isDigit
      else c.isDigit && ds.all Char.isDigit := rfl

theorem isIntLiteral_intToDecimal (i : Int) : isIntLiteral (intToDecimal i) = true := by
  by_cases hi : i < 0
  · obtain ⟨hne, hdig⟩ := natToDecimal_digits i.natAbs
    simp only [intToDecimal, hi, if_true]
    show isIntLiteral (String.mk ('-' :: (natToDecimal i.natAbs).toList)) = true
    rw [isIntLiteral_mk_cons, if_pos rfl]
    simp only [Bool.and_eq_true, Bool.not_eq_true']
    constructor
    · simpa using hne
    · exact hdig
  · obtain ⟨hne2, hdig2⟩ := natToDecimal_digits i.toNat
    simp only [intToDecimal, hi, if_false]
    rcases hl : (natToDecimal i.toNat).toList with _ | ⟨c, cs⟩
    · exact absurd hl hne2
    · rw [hl] at hdig2
      simp only [List.all_cons, Bool.and_eq_true] at hdig2
      have hcne : ¬(c = '-') := by
        intro h
        rw [h] at hdig2
        exact absurd hdig2.1 (by decide)
      have hs : natToDecimal i.toNat = String.mk (c :: cs) := by
        rcases hnd : natToDecimal i.toNat with ⟨data⟩
        rw [hnd] at hl
        exact congrArg String.mk hl
      rw [hs, isIntLiteral_mk_cons, if_neg hcne]
      simp [hdig2.1, hdig2.2]
/-! ## IEEE-754 doubles and decimal rendering (claim C5) -/

theorem log2Fuel_eq : ∀ (fuel n : Nat), n ≤ fuel → log2Fuel fuel n = Nat.log2 n := by
  intro fuel
  induction fuel with
  | zero =>
    intro n hn
    have : n = 0 := Nat.le_zero.mp hn
    subst this
    rw [Nat.log2]
    rfl
  | succ fuel ih =>
    intro n hn
    rw [Nat.log2]
    by_cases h2 : 2 ≤ n
    · have hrec : n / 2 ≤ fuel := by
        have := Nat.div_lt_self (by omega : 0 < n) (by omega : 1 < 2)
        omega
      simp only [log2Fuel, h2, if_true, if_pos h2, ih _ hrec]
    · simp only [log2Fuel, h2, if_false, if_neg h2]

theorem natLog2_eq (n : Nat) : natLog2 n = Nat.log2 n :=
  log2Fuel_eq n n (Nat.le_refl n)

theorem searchFirst_eq (P : Int → Bool) :
    ∀ (fuel : Nat) (start m : Int), P m = true → start ≤ m → m < start + fuel →
    (∀ j, start ≤ j → j < m → P j = false) →
    searchFirstInt P start fuel = some m := by
  intro fuel
  induction fuel with
  | zero => intro start m _ h1 h2 _; omega
  | succ fuel ih =>
    intro start m hm h1 h2 hbelow
    by_cases hs : start = m
    · subst hs
      simp [searchFirstInt, hm]
    · have hPs : P start = false := hbelow start (le_refl _) (by omega)
      simp only [searchFirstInt, hPs, Bool.false_eq_true, if_false]
      exact ih (start + 1) m hm (by omega) (by omega)
        (fun j hj1 hj2 => hbelow j (by omega) hj2)

theorem roundHalfEven_one (p : Nat) : roundHalfEven p 1 = p := by
  have h1 : p % 1 = 0 := Nat.mod_one p
  simp [roundHalfEven, h1]

theorem binExp_int (v : Nat) (hv : 1 ≤ v) :
    searchFirstInt (ratLtPow2 v 1) ((natLog2 v : Int) - (natLog2 1 : Int) - 1) 8 =
      some ((Nat.log2 v : Int) + 1) := by
  have hlog1 : natLog2 1 = 0 := by decide
  rw [natLog2_eq, hlog1]
  apply searchFirst_eq
  · -- P (log2 v + 1): v < 2^(log2 v + 1)
    simp only [ratLtPow2]
    rw [if_pos (by omega)]
    have : ((Nat.log2 v : Int) + 1).toNat = Nat.log2 v + 1 := by omega
    rw [this]
    simpa using Nat.lt_log2_self
  · omega
  · omega
  · intro j hj1 hj2
    simp only [ratLtPow2]
    by_cases hj : 0 ≤ j
    · rw [if_pos hj]
      simp only [decide_eq_false_iff_not, not_lt, one_mul]
      have hjle : j.toNat ≤ Nat.log2 v := by omega
      calc 2 ^ j.toNat ≤ 2 ^ Nat.log2 v := Nat.pow_le_pow_right (by omega) hjle
        _ ≤ v := Nat.log2_self_le (by omega)
    · rw [if_neg hj]
      simp only [decide_eq_false_iff_not, not_lt]
      have : 1 ≤ v * 2 ^ (-j).toNat := Nat.one_le_iff_ne_zero.mpr (by positivity)
      omega
/-- An integer below `2^53` rounds exactly: the double is the normalized
form of the integer itself. -/
theorem roundPos_int_small (v : Nat) (h1 : 1 ≤ v) (h53 : v < 2 ^ 53) :
    roundPosRatToDouble v 1 =
      .finite false (v * 2 ^ (52 - Nat.log2 v)) ((Nat.log2 v : Int) - 52) := by
  have hlog : Nat.log2 v < 53 := (Nat.log2_lt (by omega)).mpr h53
  rw [roundPosRatToDouble, binExp_int v h1]
  dsimp only
  rw [if_neg (by omega)]
  have hscale : ((Nat.log2 v : Int) + 1 - 53) ⊔ (-1074) = (Nat.log2 v : Int) - 52 := by
    rw [sup_eq_left.mpr (by omega)]
    omega
  rw [hscale]
  have hm : (if 0 ≤ (Nat.log2 v : Int) - 52 then
        roundHalfEven v (1 * 2 ^ ((Nat.log2 v : Int) - 52).toNat)
      else roundHalfEven (v * 2 ^ (-((Nat.log2 v : Int) - 52)).toNat) 1) =
      v * 2 ^ (52 - Nat.log2 v) := by
    by_cases htop : Nat.log2 v = 52
    · rw [if_pos (by omega)]
      have ht : ((Nat.log2 v : Int) - 52).toNat = 0 := by omega
      rw [ht, htop]
      simp [roundHalfEven_one]
    · rw [if_neg (by omega)]
      have ht : (-((Nat.log2 v : Int) - 52)).toNat = 52 - Nat.log2 v := by omega
      rw [ht, roundHalfEven_one]
  rw [hm]
  have hmlt : v * 2 ^ (52 - Nat.log2 v) < 2 ^ 53 := by
    have hv2 : v < 2 ^ (Nat.log2 v + 1) := Nat.lt_log2_self
    calc v * 2 ^ (52 - Nat.log2 v) < 2 ^ (Nat.log2 v + 1) * 2 ^ (52 - Nat.log2 v) :=
          (Nat.mul_lt_mul_right (Nat.pos_pow_of_pos _ (by omega))).mpr hv2
      _ = 2 ^ 53 := by
          rw [← pow_add]
          congr 1
          omega
  rw [if_neg (by omega)]

/-- An integer at or above `2^53` rounds to an infinity or to a double with
a positive binary exponent. -/
theorem roundPos_int_big (c : Nat) (hc : 2 ^ 53 ≤ c) :
    (∃ b, roundPosRatToDouble c 1 = .inf b) ∨
      ∃ m e, roundPosRatToDouble c 1 = .finite false m e ∧ 1 ≤ e := by
  have hc0 : c ≠ 0 := by positivity
  have hlog : 53 ≤ Nat.log2 c := (Nat.le_log2 hc0).mpr hc
  have hE := binExp_int c (by omega)
  rw [roundPosRatToDouble, hE]
  dsimp only
  by_cases htop : 1024 < (Nat.log2 c : Int) + 1
  · rw [if_pos htop]
    exact Or.inl ⟨false, rfl⟩
  · rw [if_neg htop]
    have hscale : ((Nat.log2 c : Int) + 1 - 53) ⊔ (-1074) = (Nat.log2 c : Int) - 52 := by
      rw [sup_eq_left.mpr (by omega)]
      omega
    rw [hscale]
    have hm0 : (if 0 ≤ (Nat.log2 c : Int) - 52 then
          roundHalfEven c (1 * 2 ^ ((Nat.log2 c : Int) - 52).toNat)
        else roundHalfEven (c * 2 ^ (-((Nat.log2 c : Int) - 52)).toNat) 1) =
        roundHalfEven c (1 * 2 ^ ((Nat.log2 c : Int) - 52).toNat) := by
      rw [if_pos (by omega)]
    rw [hm0]
    by_cases hcarry : roundHalfEven c (1 * 2 ^ ((Nat.log2 c : Int) - 52).toNat) = 2 ^ 53
    · rw [if_pos hcarry]
      by_cases hmax : 1024 ≤ (Nat.log2 c : Int) + 1
      · rw [if_pos hmax]
        exact Or.inl ⟨false, rfl⟩
      · rw [if_neg hmax]
        exact Or.inr ⟨2 ^ 52, _, rfl, by omega⟩
    · rw [if_neg hcarry]
      exact Or.inr ⟨_, _, rfl, by omega⟩

/-- Within the exact range, distinct integers round to distinct doubles,
and no integer at or above `2^53` shares a double with one below. -/
theorem roundPos_int_ne (v c : Nat) (hv1 : 1 ≤ v) (hv : v < 2 ^ 53) (hc1 : 1 ≤ c)
    (hne : c ≠ v) : roundPosRatToDouble c 1 ≠ roundPosRatToDouble v 1 := by
  have hlogv : Nat.log2 v < 53 := (Nat.log2_lt (by omega)).mpr hv
  rw [roundPos_int_small v hv1 hv]
  by_cases hc : c < 2 ^ 53
  · rw [roundPos_int_small c hc1 hc]
    intro h
    injection h with _ hm he
    have hlogeq : Nat.log2 c = Nat.log2 v := by omega
    rw [hlogeq] at hm
    have := Nat.eq_of_mul_eq_mul_right (Nat.pos_pow_of_pos (52 - Nat.log2 v) (by omega)) hm
    exact hne this
  · rcases roundPos_int_big c (by omega) with ⟨b, hb⟩ | ⟨m, e, hfin, he⟩
    · rw [hb]
      intro h
      exact JsDouble.noConfusion h
    · rw [hfin]
      intro h
      injection h with _ _ hexp
      omega

/-- `natToDecRev` is fuel-independent above the value. -/
theorem natToDecRev_congr : ∀ (f1 f2 n : Nat), n ≤ f1 → n ≤ f2 →
    natToDecRev f1 n = natToDecRev f2 n := by
  intro f1
  induction f1 with
  | zero =>
    intro f2 n h1 _
    interval_cases n
    cases f2 <;> simp [natToDecRev]
  | succ f ih =>
    intro f2 n h1 h2
    by_cases hn : n = 0
    · subst hn
      cases f2 <;> simp [natToDecRev]
    · rcases f2 with _ | f2
      · omega
      · simp only [natToDecRev, hn, if_false]
        have hd : n / 10 < n := Nat.div_lt_self (by omega) (by omega)
        rw [ih f2 (n / 10) (by omega) (by omega)]

/-- One unfolding of `natToDecRev` with canonical fuel. -/
theorem natToDecRev_unfold (fuel n : Nat) (hn : 1 ≤ n) (hf : n ≤ fuel) :
    natToDecRev fuel n = Nat.digitChar (n % 10) :: natToDecRev (n / 10) (n / 10) := by
  rcases fuel with _ | f
  · omega
  · have hd : n / 10 < n := Nat.div_lt_self (by omega) (by omega)
    simp only [natToDecRev, show ¬(n = 0) by omega, if_false]
    rw [natToDecRev_congr f (n / 10) (n / 10) (by omega) le_rfl]

/-- Digit count of `natToDecRev`. -/
theorem natToDecRev_length (n : Nat) : 1 ≤ n →
    (natToDecRev n n).length = Nat.log 10 n + 1 := by
  induction n using Nat.strong_induction_on with
  | _ n ih =>
    intro h1
    rw [natToDecRev_unfold n n h1 le_rfl]
    by_cases hsmall : n < 10
    · have hq : n / 10 = 0 := Nat.div_eq_of_lt hsmall
      have hlog : Nat.log 10 n = 0 := Nat.log_eq_zero_iff.mpr (Or.inl hsmall)
      rw [hq, hlog]
      rfl
    · have hq1 : 1 ≤ n / 10 := by
        rw [Nat.le_div_iff_mul_le (by omega)]
        omega
      have hd : n / 10 < n := Nat.div_lt_self (by omega) (by omega)
      have hrec := ih (n / 10) hd hq1
      have hdb := Nat.log_div_base 10 n
      have hpos : 0 < Nat.log 10 n := Nat.log_pos (by omega) (by omega)
      simp only [List.length_cons, hrec]
      omega

/-- Digits of `s * 10 ^ t`: `t` zeros then the digits of `s`
(little-endian). -/
theorem natToDecRev_mul_pow (s : Nat) (hs : 1 ≤ s) :
    ∀ t, natToDecRev (s * 10 ^ t) (s * 10 ^ t) =
      List.replicate t ('0') ++ natToDecRev s s := by
  intro t
  induction t with
  | zero => simp
  | succ t ih =>
    have hp : 1 ≤ 10 ^ t := Nat.one_le_pow _ _ (by omega)
    have hn1 : 1 ≤ s * 10 ^ (t + 1) := Nat.mul_pos (by omega) (Nat.pos_pow_of_pos _ (by omega))
    have hsplit : s * 10 ^ (t + 1) = (s * 10 ^ t) * 10 := by ring
    have hmod : (s * 10 ^ (t + 1)) % 10 = 0 := by
      rw [hsplit]
      exact Nat.mul_mod_left _ 10
    have hdiv : (s * 10 ^ (t + 1)) / 10 = s * 10 ^ t := by
      rw [hsplit]
      exact Nat.mul_div_cancel _ (by omega)
    rw [natToDecRev_unfold _ _ hn1 le_rfl, hmod, hdiv, ih]
    rw [show Nat.digitChar 0 = '0' from rfl, List.replicate_succ]
    simp

/-- `String(s * 10 ^ t)` is `String(s)` followed by `t` zeros. -/
theorem natToDecimal_mul_pow (s t : Nat) (hs : 1 ≤ s) :
    natToDecimal (s * 10 ^ t) =
      natToDecimal s ++ String.mk (List.replicate t ('0')) := by
  have hn : ¬(s * 10 ^ t = 0) := Nat.pos_iff_ne_zero.mp (Nat.mul_pos (by omega) (Nat.pos_pow_of_pos _ (by omega)))
  have hs0 : ¬(s = 0) := by omega
  simp only [natToDecimal, hn, hs0, if_false]
  rw [natToDecRev_mul_pow s hs t]
  show String.mk (List.replicate t ('0') ++ natToDecRev s s).reverse = _
  rw [List.reverse_append, List.reverse_replicate]
  rfl

/-- Digit count of `natToDecimal`. -/
theorem natToDecimal_length (s : Nat) (hs : 1 ≤ s) :
    (natToDecimal s).toList.length = Nat.log 10 s + 1 := by
  simp only [natToDecimal, show ¬(s = 0) by omega, if_false]
  show (natToDecRev s s).reverse.length = _
  rw [List.length_reverse]
  exact natToDecRev_length s hs

/-- Base-10 logarithm of `s * 10 ^ t`. -/
theorem log10_mul_pow (s t : Nat) (hs : 1 ≤ s) :
    Nat.log 10 (s * 10 ^ t) = Nat.log 10 s + t := by
  apply Nat.log_eq_of_pow_le_of_lt_pow
  · rw [pow_add]
    exact Nat.mul_le_mul_right _ (Nat.pow_log_le_self 10 (by omega))
  · rw [show Nat.log 10 s + t + 1 = (Nat.log 10 s + 1) + t by omega, pow_add]
    exact (Nat.mul_lt_mul_right (Nat.pos_pow_of_pos _ (by omega))).mpr
      (Nat.lt_pow_succ_log_self (by omega) s)

/-- Scaling a ratio by `2 ^ j` does not change its comparison with a
nonnegative power of ten. -/
theorem ratLtPow10_scaled (v j : Nat) (n : Int) (hn : 0 ≤ n) :
    ratLtPow10 (v * 2 ^ j) (2 ^ j) n = decide (v < 10 ^ n.toNat) := by
  have hp : 0 < 2 ^ j := Nat.pos_pow_of_pos _ (by omega)
  unfold ratLtPow10
  rw [if_pos hn]
  apply decide_eq_decide.mpr
  rw [Nat.mul_comm (2 ^ j) (10 ^ n.toNat)]
  exact Nat.mul_lt_mul_right hp

/-- The decimal-exponent search on the scaled pair finds
`log10 v + 1`. -/
theorem decExpOf_scaled (v j : Nat) (hv1 : 1 ≤ v)
    (hD400 : Nat.log 10 v + 1 ≤ 400) :
    decExpOf (v * 2 ^ j) (2 ^ j) = some ((Nat.log 10 v : Int) + 1) := by
  have hp : 0 < 2 ^ j := Nat.pos_pow_of_pos _ (by omega)
  have hq : 2 ^ j ≤ v * 2 ^ j := by
    calc 2 ^ j = 1 * 2 ^ j := (one_mul _).symm
    _ ≤ v * 2 ^ j := Nat.mul_le_mul_right _ hv1
  rw [decExpOf, if_pos hq]
  apply searchFirst_eq
  · rw [ratLtPow10_scaled v j _ (by omega)]
    have ht : ((Nat.log 10 v : Int) + 1).toNat = Nat.log 10 v + 1 := by omega
    rw [ht]
    exact decide_eq_true (Nat.lt_pow_succ_log_self (by omega) v)
  · omega
  · omega
  · intro m h1m hm
    rw [ratLtPow10_scaled v j m (by omega)]
    rw [decide_eq_false_iff_not, not_lt]
    calc 10 ^ m.toNat ≤ 10 ^ Nat.log 10 v := Nat.pow_le_pow_right (by omega) (by omega)
    _ ≤ v := Nat.pow_log_le_self 10 (by omega)

/-- The candidate quotient of the digit search at stage `k`. -/
theorem searchK_s0 (vv j k dk : Nat) (n : Int) (hdk : (k : Int) - n = -(dk : Int)) :
    (mulPow10 (vv * 2 ^ j) (2 ^ j) ((k : Int) - n)).1 /
      (mulPow10 (vv * 2 ^ j) (2 ^ j) ((k : Int) - n)).2 = vv / 10 ^ dk := by
  have hp2 : 0 < 2 ^ j := Nat.pos_pow_of_pos _ (by omega)
  rw [hdk]
  by_cases h0 : dk = 0
  · subst h0
    have hz : -(((0 : Nat) : Int)) = 0 := by omega
    rw [hz, mulPow10, if_pos (by omega)]
    dsimp only
    have ht : (0 : Int).toNat = 0 := rfl
    rw [ht, pow_zero, Nat.mul_one, Nat.div_one]
    exact Nat.mul_div_cancel _ hp2
  · rw [mulPow10, if_neg (by omega)]
    have ht : (-(-((dk : Nat) : Int))).toNat = dk := by omega
    rw [ht]
    dsimp only
    rw [Nat.mul_comm vv (2 ^ j)]
    exact Nat.mul_div_mul_left _ _ hp2

/-- Acceptance in the digit search is exact reconstruction of the
integer value. -/
theorem accept_eval (v c k dk : Nat) (hv1 : 1 ≤ v) (hv53 : v < 2 ^ 53)
    (hdk : (Nat.log 10 v : Int) + 1 - (k : Int) = (dk : Int)) :
    (decide (10 ^ (k - 1) ≤ c) && decide (c ≤ 10 ^ k) &&
      decide (roundPosRatToDouble
          (mulPow10 c 1 ((Nat.log 10 v : Int) + 1 - (k : Int))).1
          (mulPow10 c 1 ((Nat.log 10 v : Int) + 1 - (k : Int))).2 =
        roundPosRatToDouble v 1)) =
      (decide (10 ^ (k - 1) ≤ c) && decide (c ≤ 10 ^ k) &&
        decide (c * 10 ^ dk = v)) := by
  rw [hdk, mulPow10, if_pos (by omega)]
  have ht : ((dk : Nat) : Int).toNat = dk := by omega
  rw [ht]
  dsimp only
  by_cases hc : c = 0
  · subst hc
    have h1 : decide (10 ^ (k - 1) ≤ 0) = false := by
      rw [decide_eq_false_iff_not]
      have := Nat.pos_pow_of_pos (k - 1) (show 0 < 10 by omega)
      omega
    rw [h1]
    simp
  · congr 1
    apply decide_eq_decide.mpr
    have hcv1 : 1 ≤ c * 10 ^ dk :=
      Nat.mul_pos (by omega) (Nat.pos_pow_of_pos _ (by omega))
    constructor
    · intro h
      by_contra hne
      exact roundPos_int_ne v (c * 10 ^ dk) hv1 hv53 hcv1 hne h
    · intro h
      rw [h]

/-- The digit search returns the trailing-zero-stripped significand and
the decimal exponent. -/
theorem searchKGo_result (v s t j : Nat) (hs1 : 1 ≤ s) (hnd : ¬(10 ∣ s))
    (hvst : v = s * 10 ^ t) (hv53 : v < 2 ^ 53) :
    ∀ fuel k, 1 ≤ k → k ≤ Nat.log 10 s + 1 → Nat.log 10 s + 1 - k < fuel →
      searchKGo (v * 2 ^ j) (2 ^ j) (roundPosRatToDouble v 1)
        ((Nat.log 10 v : Int) + 1) k fuel =
        some (s, (Nat.log 10 v : Int) + 1) := by
  have hv1 : 1 ≤ v := by
    rw [hvst]
    exact Nat.mul_pos hs1 (Nat.pos_pow_of_pos _ (by omega))
  have hD : Nat.log 10 v = Nat.log 10 s + t := by
    rw [hvst]
    exact log10_mul_pow s t hs1
  intro fuel
  induction fuel with
  | zero =>
    intro k _ _ h
    omega
  | succ f ih =>
    intro k hk1 hkD hfuel
    simp only [searchKGo]
    rw [searchK_s0 v j k (Nat.log 10 v + 1 - k) ((Nat.log 10 v : Int) + 1) (by omega)]
    by_cases hkcase : k = Nat.log 10 s + 1
    · have hdkt : Nat.log 10 v + 1 - k = t := by omega
      have hs0 : v / 10 ^ (Nat.log 10 v + 1 - k) = s := by
        rw [hdkt, hvst]
        exact Nat.mul_div_cancel _ (Nat.pos_pow_of_pos t (by omega))
      rw [hs0]
      rw [accept_eval v s k (Nat.log 10 v + 1 - k) hv1 hv53 (by omega),
        accept_eval v (s + 1) k (Nat.log 10 v + 1 - k) hv1 hv53 (by omega)]
      have hA : decide (10 ^ (k - 1) ≤ s) = true := decide_eq_true (by
        rw [hkcase]
        simpa using Nat.pow_log_le_self 10 (by omega))
      have hB : decide (s ≤ 10 ^ k) = true := decide_eq_true (by
        rw [hkcase]
        exact le_of_lt (Nat.lt_pow_succ_log_self (by omega) s))
      have hC : decide (s * 10 ^ (Nat.log 10 v + 1 - k) = v) = true :=
        decide_eq_true (by rw [hdkt, hvst])
      have hC2 : decide ((s + 1) * 10 ^ (Nat.log 10 v + 1 - k) = v) = false := by
        rw [decide_eq_false_iff_not]
        intro h
        rw [hdkt, hvst] at h
        have := Nat.eq_of_mul_eq_mul_right (Nat.pos_pow_of_pos t (by omega)) h
        omega
      rw [hA, hB, hC, hC2, Bool.and_false]
      rw [if_pos (show ((true && true && true : Bool) = true) from rfl),
        if_neg Bool.false_ne_true]
      have hlt : s < 10 ^ k := by
        rw [hkcase]
        exact Nat.lt_pow_succ_log_self (by omega) s
      rw [if_neg (by omega)]
    · have hdk1 : t + 1 ≤ Nat.log 10 v + 1 - k := by omega
      have hgen : ∀ c : Nat, ¬(c * 10 ^ (Nat.log 10 v + 1 - k) = v) := by
        intro c hc
        have hdvd : (10 : Nat) ^ (Nat.log 10 v + 1 - k) ∣ v :=
          ⟨c, by rw [Nat.mul_comm]; exact hc.symm⟩
        have hsub : (10 : Nat) ^ (t + 1) ∣ v :=
          dvd_trans (pow_dvd_pow 10 hdk1) hdvd
        rw [hvst] at hsub
        have hsw : (10 : Nat) ^ t * 10 ∣ 10 ^ t * s := by
          rw [show (10 : Nat) ^ t * 10 = 10 ^ (t + 1) by ring, Nat.mul_comm]
          exact hsub
        exact hnd ((Nat.mul_dvd_mul_iff_left (Nat.pos_pow_of_pos t (by omega))).mp hsw)
      have h3a : decide (v / 10 ^ (Nat.log 10 v + 1 - k) * 10 ^ (Nat.log 10 v + 1 - k) = v)
          = false := by
        rw [decide_eq_false_iff_not]
        exact hgen _
      have h3b : decide ((v / 10 ^ (Nat.log 10 v + 1 - k) + 1) * 10 ^ (Nat.log 10 v + 1 - k)
          = v) = false := by
        rw [decide_eq_false_iff_not]
        exact hgen _
      rw [accept_eval v (v / 10 ^ (Nat.log 10 v + 1 - k)) k (Nat.log 10 v + 1 - k)
          hv1 hv53 (by omega),
        accept_eval v (v / 10 ^ (Nat.log 10 v + 1 - k) + 1) k (Nat.log 10 v + 1 - k)
          hv1 hv53 (by omega)]
      rw [h3a, h3b, Bool.and_false, Bool.and_false]
      rw [if_neg Bool.false_ne_true, if_neg Bool.false_ne_true]
      exact ih (k + 1) (by omega) (by omega) (by omega)

/-- Every positive integer factors as a non-multiple of ten times a
power of ten. -/
theorem exists_pow10_factor : ∀ v : Nat, 1 ≤ v →
    ∃ s t, 1 ≤ s ∧ ¬(10 ∣ s) ∧ v = s * 10 ^ t := by
  intro v
  induction v using Nat.strong_induction_on with
  | _ v ih =>
    intro hv
    by_cases hdvd : 10 ∣ v
    · obtain ⟨w, hw⟩ := hdvd
      have hw1 : 1 ≤ w := by omega
      have hwlt : w < v := by omega
      obtain ⟨s, t, hs1, hnd, hst⟩ := ih w hwlt hw1
      exact ⟨s, t + 1, hs1, hnd, by rw [hw, hst]; ring⟩
    · exact ⟨v, 0, hv, hdvd, by ring⟩

/-- `renderDigits` in the all-integer-digits regime prints the full
decimal numeral. -/
theorem renderDigits_int (v s t : Nat) (hs1 : 1 ≤ s) (hvst : v = s * 10 ^ t)
    (hD : Nat.log 10 v = Nat.log 10 s + t) (hlogv : Nat.log 10 v < 16) :
    renderDigits s ((Nat.log 10 v : Int) + 1) = natToDecimal v := by
  rw [renderDigits]
  dsimp only
  have hlen : (natToDecimal s).length = Nat.log 10 s + 1 := natToDecimal_length s hs1
  rw [hlen]
  have hcond : ((Nat.log 10 s + 1 : Nat) : Int) ≤ (Nat.log 10 v : Int) + 1 ∧
      ((Nat.log 10 v : Int) + 1) ≤ 21 := ⟨by omega, by omega⟩
  rw [if_pos hcond]
  have htz : ((Nat.log 10 v : Int) + 1 - ((Nat.log 10 s + 1 : Nat) : Int)).toNat = t := by
    omega
  rw [htz, ← natToDecimal_mul_pow s t hs1, ← hvst]

/-- The decimal string of an exactly-representable positive integer
double is its decimal numeral. -/
theorem jsDoubleToString_finite_small (neg : Bool) (v s t : Nat) (h1 : 1 ≤ v)
    (h53 : v < 2 ^ 53) (hs1 : 1 ≤ s) (hnd : ¬(10 ∣ s)) (hvst : v = s * 10 ^ t) :
    jsDoubleToString
      (.finite neg (v * 2 ^ (52 - Nat.log2 v)) ((Nat.log2 v : Int) - 52)) =
      (if neg then "-" else "") ++ natToDecimal v := by
  have hlog2 : Nat.log2 v < 53 := (Nat.log2_lt (by omega)).mpr h53
  have hm0 : ¬(v * 2 ^ (52 - Nat.log2 v) = 0) :=
    Nat.pos_iff_ne_zero.mp (Nat.mul_pos (by omega) (Nat.pos_pow_of_pos _ (by omega)))
  have hv16 : v < 10 ^ 16 := by
    calc v < 2 ^ 53 := h53
    _ < 10 ^ 16 := by norm_num
  have hlogv : Nat.log 10 v < 16 := Nat.log_lt_of_lt_pow (by omega) hv16
  have hst : s ≤ v := by
    rw [hvst]
    calc s = s * 1 := (Nat.mul_one s).symm
    _ ≤ s * 10 ^ t := Nat.mul_le_mul_left s (Nat.one_le_pow _ _ (by omega))
  have hlogs : Nat.log 10 s ≤ Nat.log 10 v := Nat.log_mono_right hst
  have hD : Nat.log 10 v = Nat.log 10 s + t := by
    rw [hvst]
    exact log10_mul_pow s t hs1
  simp only [jsDoubleToString]
  rw [if_neg hm0]
  have hpair : (if 0 ≤ (Nat.log2 v : Int) - 52 then
        (v * 2 ^ (52 - Nat.log2 v) * 2 ^ ((Nat.log2 v : Int) - 52).toNat, 1)
      else (v * 2 ^ (52 - Nat.log2 v), 2 ^ (-((Nat.log2 v : Int) - 52)).toNat)) =
      ((v * 2 ^ (52 - Nat.log2 v), 2 ^ (52 - Nat.log2 v)) : Nat × Nat) := by
    by_cases h52 : Nat.log2 v = 52
    · rw [if_pos (by omega)]
      rw [h52]
      norm_num
    · rw [if_neg (by omega)]
      have ht : (-((Nat.log2 v : Int) - 52)).toNat = 52 - Nat.log2 v := by omega
      rw [ht]
  rw [hpair]
  dsimp only
  rw [decExpOf_scaled v (52 - Nat.log2 v) h1 (by omega)]
  dsimp only
  rw [show JsDouble.finite false (v * 2 ^ (52 - Nat.log2 v)) ((Nat.log2 v : Int) - 52) =
      roundPosRatToDouble v 1 from (roundPos_int_small v h1 h53).symm]
  rw [searchKGo_result v s t (52 - Nat.log2 v) hs1 hnd hvst h53 30 1 (by omega)
    (by omega) (by omega)]
  dsimp only
  rw [renderDigits_int v s t hs1 hvst hD hlogv]

/-- Prepending the empty string is the identity. -/
theorem empty_append_str (s : String) : "" ++ s = s := by
  cases s with
  | mk l => rfl

/-- Prepending `"-"` conses a minus sign. -/
theorem dash_append_str (s : String) : "-" ++ s = String.mk ('-' :: s.toList) := by
  cases s with
  | mk l => rfl

/-- `String(n)` after rounding an integer whose magnitude is below
`2 ^ 53` is the exact decimal numeral of the integer. -/
theorem jsString_ofInt_small (w : Int) (hw : w.natAbs < 2 ^ 53) :
    jsDoubleToString (jsDoubleOfInt w) = intToDecimal w := by
  by_cases h0 : w = 0
  · subst h0
    decide
  · have hv1 : 1 ≤ w.natAbs := by omega
    obtain ⟨s, t, hs1, hnd, hvst⟩ := exists_pow10_factor w.natAbs hv1
    rw [jsDoubleOfInt, roundPos_int_small w.natAbs hv1 hw]
    simp only [setNeg]
    rw [jsDoubleToString_finite_small (decide (w < 0)) w.natAbs s t hv1 hw hs1 hnd hvst]
    by_cases hneg : w < 0
    · rw [show decide (w < 0) = true from decide_eq_true hneg]
      rw [if_pos rfl, intToDecimal, if_pos hneg]
      exact dash_append_str _
    · rw [show decide (w < 0) = false from by
        rw [decide_eq_false_iff_not]; exact hneg]
      rw [if_neg Bool.false_ne_true, intToDecimal, if_neg hneg]
      have htn : w.toNat = w.natAbs := by omega
      rw [htn]
      exact empty_append_str _


set_option maxRecDepth 10000

/-- Claim C5 counterexample: the spec calls the integer literal "the
unquoted decimal string", but `createParameterValue` renders the parsed
integer through a JS double and ECMA `String()`, so the 23-digit input
`10000000000000000000000` with an integer tag yields the exponential
literal `"1e+22"`, which is not a decimal integer numeral. -/
theorem claim_C5_counterexample :
    createParameterValue "10000000000000000000000" "integer" = .ok "1e+22" ∧
    isIntLiteral "1e+22" = false := by
  constructor
  · decide
  · decide

/-- Claim C5 (corrected): `createParameterValue` either returns a literal
consistent with the tag's textual grammar or fails with a conversion
error, and never returns a literal for a value it should reject — with the
correction that numeric literals are `String()` of an IEEE-754 double:
integer tags fail exactly when `parseInt` finds no digits, and otherwise
render the parsed integer exactly as its decimal numeral whenever its
magnitude is below `2^53` (from `1e21` up JS switches to exponential
notation: see the counterexample); float tags fail exactly when
`parseFloat` finds no numeric prefix ("1.50" renders as "1.5"); string
tags quote and escape (abc to 'abc', O'Brien to 'O\'Brien'); boolean tags
accept only case-insensitive true/1/false/0 and emit only
`"true"`/`"false"`. -/
theorem claim_C5 (v : String) (w : Int) :
    (jsParseInt v = none →
      createParameterValue v "integer" =
        .error ("Cannot convert \"" ++ v ++ "\" to integer type")) ∧
    (jsParseInt v = some w → w.natAbs < 2 ^ 53 →
      createParameterValue v "integer" = .ok (intToDecimal w) ∧
      isIntLiteral (intToDecimal w) = true) ∧
    (jsParseFloat v = .notNum →
      createParameterValue v "decimal" =
        .error ("Cannot convert \"" ++ v ++ "\" to numeric type")) ∧
    (¬(jsToLower v = "true" ∨ jsToLower v = "1" ∨ jsToLower v = "false" ∨
        jsToLower v = "0") →
      createParameterValue v "boolean" =
        .error ("Cannot convert \"" ++ v ++ "\" to boolean type")) ∧
    (∀ r, createParameterValue v "boolean" = .ok r → r = "true" ∨ r = "false") ∧
    createParameterValue v "string" =
      .ok (String.mk (squote :: (escapeEntityValue v).toList ++ [squote])) ∧
    createParameterValue "abc" "string" =
      .ok (String.mk [squote, 'a', 'b', 'c', squote]) ∧
    createParameterValue (String.mk ['O', squote, 'B', 'r', 'i', 'e', 'n']) "string" =
      .ok (String.mk [squote, 'O', bslash, squote, 'B', 'r', 'i', 'e', 'n', squote]) ∧
    createParameterValue "12" "BIGINT" = .ok "12" ∧
    createParameterValue "1.50" "decimal" = .ok "1.5" := by
  have hint : ∀ u : String, createParameterValue u "integer" =
      match jsParseInt u with
      | none => .error ("Cannot convert \"" ++ u ++ "\" to integer type")
      | some intValue => .ok (jsDoubleToString (jsDoubleOfInt intValue)) := fun u => rfl
  have hbool : ∀ u : String, createParameterValue u "boolean" =
      (if jsToLower u = "true" ∨ jsToLower u = "1" then .ok "true"
       else if jsToLower u = "false" ∨ jsToLower u = "0" then .ok "false"
       else .error ("Cannot convert \"" ++ u ++ "\" to boolean type")) := fun u => rfl
  refine ⟨?_, ?_, ?_, ?_, ?_, rfl, by decide, by decide, by decide, by decide⟩
  · intro h
    rw [hint v, h]
  · intro h hw
    rw [hint v, h]
    refine ⟨?_, isIntLiteral_intToDecimal w⟩
    show Except.ok (jsDoubleToString (jsDoubleOfInt w)) = Except.ok (intToDecimal w)
    rw [jsString_ofInt_small w hw]
  · intro h
    have hdec : createParameterValue v "decimal" =
        match jsParseFloat v with
        | .notNum => .error ("Cannot convert \"" ++ v ++ "\" to numeric type")
        | .infRes neg => .ok (jsDoubleToString (.inf neg))
        | .numRes neg mant ex => .ok (jsDoubleToString (jsDoubleOfDecimal neg mant ex)) := rfl
    rw [hdec, h]
  · intro h
    rw [hbool v, if_neg (by tauto), if_neg (by tauto)]
  · intro r hr
    rw [hbool v] at hr
    by_cases h1 : jsToLower v = "true" ∨ jsToLower v = "1"
    · rw [if_pos h1] at hr
      left
      exact (Except.ok.injEq _ _ ▸ hr).symm
    · rw [if_neg h1] at hr
      by_cases h2 : jsToLower v = "false" ∨ jsToLower v = "0"
      · rw [if_pos h2] at hr
        right
        exact (Except.ok.injEq _ _ ▸ hr).symm
      · rw [if_neg h2] at hr
        exact Except.noConfusion hr

/-- Witness for claim C5: the theorem applied at `"abc"`, `"-42"`,
`"xyz"` and `"maybe"`, discharging each parse hypothesis by computation. -/
theorem claim_C5_witness :
    jsParseInt "abc" = none ∧
    createParameterValue "abc" "integer" =
      .error "Cannot convert \"abc\" to integer type" ∧
    jsParseInt "-42" = some (-42) ∧
    createParameterValue "-42" "integer" = .ok (intToDecimal (-42)) ∧
    intToDecimal (-42) = "-42" ∧
    jsParseFloat "xyz" = .notNum ∧
    createParameterValue "xyz" "decimal" =
      .error "Cannot convert \"xyz\" to numeric type" ∧
    createParameterValue "maybe" "boolean" =
      .error "Cannot convert \"maybe\" to boolean type" :=
  ⟨by decide, (claim_C5 "abc" 0).1 (by decide),
   by decide, ((claim_C5 "-42" (-42)).2.1 (by decide) (by decide)).1, by decide,
   by decide, (claim_C5 "xyz" 0).2.2.1 (by decide),
   (claim_C5 "maybe" 0).2.2.2.1 (by decide)⟩

/-! ## Attribute formatting lemmas (claim C9) -/

/-- Claim C9: `parseAttribute` is total on string attribute values.  For any
luxon format parsers, `parseAttribute("1649724681", "date-seconds")` is a
formatted date string distinct from
`parseAttribute("1649724681", "date-millis")`; for each date parser tag an
unparsable value returns the original string unchanged; and in general the
result is either the original value or a formatted date — never an
exception (the embedded function is total by construction, mirroring the
try/catch plus isValid fallbacks). -/
theorem claim_C9 (L : LuxonFormats) :
    parseAttribute L (some "1649724681") (some "date-seconds") = "4/12/2022, 12:51 AM"
    ∧ parseAttribute L (some "1649724681") (some "date-millis") = "1/20/1970, 2:15 AM"
    ∧ parseAttribute L (some "1649724681") (some "date-seconds") ≠
        parseAttribute L (some "1649724681") (some "date-millis")
    ∧ (∀ s, jsToNumber s = none →
        parseAttribute L (some s) (some "date-seconds") = s
        ∧ parseAttribute L (some s) (some "date-millis") = s)
    ∧ (∀ s, L.fromISO s = none → parseAttribute L (some s) (some "date-iso") = s)
    ∧ (∀ s, L.fromHTTP s = none → parseAttribute L (some s) (some "date-http") = s)
    ∧ (∀ s, L.fromRFC2822 s = none → parseAttribute L (some s) (some "date-rfc2822") = s)
    ∧ (∀ s, L.fromSQL s = none → parseAttribute L (some s) (some "date-sql") = s)
    ∧ (∀ p, parseAttribute L none p = "")
    ∧ (∀ s p, parseAttribute L (some s) p = s ∨
        ∃ ms, parseAttribute L (some s) p = formatDateTimeShort ms) := by
  have hsec : fromSecondsJS "1649724681" = some 1649724681000 := by decide
  have hmil : fromMillisJS "1649724681" = some 1649724681 := by decide
  have h1 : parseAttribute L (some "1649724681") (some "date-seconds") =
      "4/12/2022, 12:51 AM" := by
    simp only [parseAttribute, hsec]
    rw [if_neg (by decide), if_neg (by decide), if_neg (by decide), if_neg (by decide)]
    decide
  have h2 : parseAttribute L (some "1649724681") (some "date-millis") =
      "1/20/1970, 2:15 AM" := by
    simp only [parseAttribute, hmil]
    rw [if_neg (by decide), if_neg (by decide), if_neg (by decide), if_neg (by decide),
      if_neg (by decide)]
    decide
  refine ⟨h1, h2, ?_, ?_, ?_, ?_, ?_, ?_, fun p => rfl, ?_⟩
  · rw [h1, h2]
    decide
  · intro s hs
    constructor
    · simp [parseAttribute, fromSecondsJS, hs]
    · simp [parseAttribute, fromMillisJS, hs]
  · intro s hs
    simp [parseAttribute, hs]
  · intro s hs
    simp [parseAttribute, hs]
  · intro s hs
    simp [parseAttribute, hs]
  · intro s hs
    simp [parseAttribute, hs]
  · intro s p
    rcases p with _ | tag
    · exact Or.inl rfl
    · simp only [parseAttribute]
      by_cases ha : tag = "date-iso"
      · rcases hr : L.fromISO s with _ | ms
        · exact Or.inl (by simp [ha, hr])
        · exact Or.inr ⟨ms, by simp [ha, hr]⟩
      · by_cases hb : tag = "date-http"
        · rcases hr : L.fromHTTP s with _ | ms
          · exact Or.inl (by simp [ha, hb, hr])
          · exact Or.inr ⟨ms, by simp [ha, hb, hr]⟩
        · by_cases hc : tag = "date-rfc2822"
          · rcases hr : L.fromRFC2822 s with _ | ms
            · exact Or.inl (by simp [ha, hb, hc, hr])
            · exact Or.inr ⟨ms, by simp [ha, hb, hc, hr]⟩
          · by_cases hd : tag = "date-sql"
            · rcases hr : L.fromSQL s with _ | ms
              · exact Or.inl (by simp [ha, hb, hc, hd, hr])
              · exact Or.inr ⟨ms, by simp [ha, hb, hc, hd, hr]⟩
            · by_cases he : tag = "date-seconds"
              · rcases hr : fromSecondsJS s with _ | ms
                · exact Or.inl (by simp [ha, hb, hc, hd, he, hr])
                · exact Or.inr ⟨ms, by simp [ha, hb, hc, hd, he, hr]⟩
              · by_cases hf : tag = "date-millis"
                · rcases hr : fromMillisJS s with _ | ms
                  · exact Or.inl (by simp [ha, hb, hc, hd, he, hf, hr])
                  · exact Or.inr ⟨ms, by simp [ha, hb, hc, hd, he, hf, hr]⟩
                · exact Or.inl (by simp [ha, hb, hc, hd, he, hf])

/-- Witness for claim C9: the theorem applied with luxon parsers that reject
everything, and the unparsable-value clauses discharged at `abc`. -/
theorem claim_C9_witness :
    parseAttribute rejectAllFormats (some "1649724681") (some "date-seconds") ≠
      parseAttribute rejectAllFormats (some "1649724681") (some "date-millis")
    ∧ parseAttribute rejectAllFormats (some "abc") (some "date-seconds") = "abc"
    ∧ parseAttribute rejectAllFormats (some "abc") (some "date-iso") = "abc" :=
  ⟨(claim_C9 rejectAllFormats).2.2.1,
   ((claim_C9 rejectAllFormats).2.2.2.1 "abc" (by decide)).1,
   (claim_C9 rejectAllFormats).2.2.2.2.1 "abc" rfl⟩
/-! ## Summary tag lemmas (claim C6) -/

theorem dedupFirst_spec : ∀ (l seen : List String),
    (dedupFirst seen l).Nodup ∧ ∀ x ∈ dedupFirst seen l, x ∉ seen := by
  intro l
  induction l with
  | nil => intro seen; exact ⟨List.nodup_nil, fun x hx => absurd hx (List.not_mem_nil x)⟩
  | cons x xs ih =>
    intro seen
    by_cases hx : x ∈ seen
    · simp only [dedupFirst, hx, if_true]
      exact ih seen
    · simp only [dedupFirst, hx, if_false]
      obtain ⟨hnd, hmem⟩ := ih (x :: seen)
      refine ⟨List.nodup_cons.mpr ⟨?_, hnd⟩, ?_⟩
      · intro hxin
        exact hmem x hxin (List.mem_cons_self _ _)
      · intro y hy
        rcases List.mem_cons.mp hy with rfl | hy2
        · exact hx
        · intro hyseen
          exact hmem y hy2 (List.mem_cons_of_mem _ hyseen)

theorem getSummaryTags_ok_nodup (L : LuxonFormats)
    (cached : Option (List (Option AttributeSpec))) (maxSummaryDocuments : Nat)
    (results : List Row) (tags : List String)
    (h : getSummaryTags L cached maxSummaryDocuments results = .ok tags) :
    tags.Nodup := by
  rcases cached with _ | attrs
  · have h2 : Except.ok (ε := String) [countTag results] = Except.ok tags := h
    injection h2 with h3
    rw [← h3]
    simp
  · by_cases hA : attrs.isEmpty
    · have h2 : Except.ok (ε := String) [countTag results] = Except.ok tags := by
        rw [← h]
        simp [getSummaryTags, hA]
      injection h2 with h3
      rw [← h3]
      simp
    · simp only [getSummaryTags, hA, if_false] at h
      rcases hf : attrs.foldlM (fun acc attrObj => do
          let inner ← summaryLoop L attrObj maxSummaryDocuments results
          pure (acc ++ inner)) ([] : List String) with e | acc
      · rw [hf] at h
        exact Except.noConfusion (show Except.error (α := List String) e = Except.ok tags from h)
      · rw [hf] at h
        have h2 : Except.ok (ε := String) (dedupFirst []
            (if acc.length = 0 ∨ results.length > maxSummaryDocuments
             then acc ++ [countTag results] else acc)) = Except.ok tags := h
        injection h2 with h3
        rw [← h3]
        exact (dedupFirst_spec _ []).1
/-- Claim C6 (amended): because the single-field spec `a` sets both label
and attribute to `a` and the label is truthy, every emitted tag is prefixed
`a: `.  On `[{a:x},{a:x},{a:y}]` with spec `a`: part_001's `getSummaryTags`
with `maxSummaryDocuments 3` yields `["a: x", "a: y"]` (set-semantics
deduplication does collapse the duplicate, and any successful result is
duplicate-free), and with `maxSummaryDocuments 1` yields
`["a: x", "3 results"]` (the truncation count tag is appended to, not
substituted for, the scanned tag).  The integration.js variant has no
deduplication step and yields `["a: x", "a: x", "a: y"]`. -/
theorem claim_C6 (L : LuxonFormats) (cached : Option (List (Option AttributeSpec)))
    (maxSummaryDocuments : Nat) (results : List Row) (tags : List String)
    (h : getSummaryTags L cached maxSummaryDocuments results = .ok tags) :
    tags.Nodup
    ∧ getSummaryTags rejectAllFormats (some (processAttributeOption "a")) 3
        [[("a", "x")], [("a", "x")], [("a", "y")]] = .ok ["a: x", "a: y"]
    ∧ getSummaryTags rejectAllFormats (some (processAttributeOption "a")) 1
        [[("a", "x")], [("a", "x")], [("a", "y")]] = .ok ["a: x", "3 results"]
    ∧ getSummaryTagsNoDedup rejectAllFormats (some (processAttributeOption "a")) 3
        [[("a", "x")], [("a", "x")], [("a", "y")]] = .ok ["a: x", "a: x", "a: y"] :=
  ⟨getSummaryTags_ok_nodup L cached maxSummaryDocuments results tags h,
   by decide, by decide, by decide⟩

/-- Claim C6 counterexample: on the claimed inputs the code returns
label-prefixed tags, not the claimed `["x","y"]`, and with max-documents 1
it returns the scanned tag alongside the count tag, not `["3 results"]`
alone. -/
theorem claim_C6_counterexample :
    getSummaryTags rejectAllFormats (some (processAttributeOption "a")) 3
        [[("a", "x")], [("a", "x")], [("a", "y")]] ≠ .ok ["x", "y"]
    ∧ getSummaryTags rejectAllFormats (some (processAttributeOption "a")) 1
        [[("a", "x")], [("a", "x")], [("a", "y")]] ≠ .ok ["3 results"]
    ∧ getSummaryTags rejectAllFormats (some (processAttributeOption "a")) 3
        [[("a", "x")], [("a", "x")], [("a", "y")]] = .ok ["a: x", "a: y"]
    ∧ getSummaryTags rejectAllFormats (some (processAttributeOption "a")) 1
        [[("a", "x")], [("a", "x")], [("a", "y")]] = .ok ["a: x", "3 results"] := by
  refine ⟨by decide, by decide, by decide, by decide⟩

/-- Witness for claim C6: the theorem applied at the concrete spec-`a`
inputs, discharging the successful-evaluation hypothesis there. -/
theorem claim_C6_witness :
    (["a: x", "a: y"] : List String).Nodup
    ∧ getSummaryTags rejectAllFormats (some (processAttributeOption "a")) 3
        [[("a", "x")], [("a", "x")], [("a", "y")]] = .ok ["a: x", "a: y"] :=
  ⟨(claim_C6 rejectAllFormats (some (processAttributeOption "a")) 3
      [[("a", "x")], [("a", "x")], [("a", "y")]] ["a: x", "a: y"] (by decide)).1,
   (claim_C6 rejectAllFormats (some (processAttributeOption "a")) 3
      [[("a", "x")], [("a", "x")], [("a", "y")]] ["a: x", "a: y"] (by decide)).2.1⟩
/-! ## Attribute spec lemmas (claim C10) -/

/-- Claim C10: a comma-separated token with four or more colon-separated
fields matches none of the three surface syntaxes, so `processAttributeOption`
returns `undefined` (`none`) at that token's position; consequently the
downstream consumers that read `.attribute` off each entry — `getSummaryTags`,
`getDocumentTitle` and `getDetails`, shown on the spec `a:b:c:d` with a
nonempty result row — hit an undefined element and throw a `TypeError`. -/
theorem claim_C10 (s : String) (i : Nat) (tok : List Char)
    (htok : (splitOnChar ',' s.toList)[i]? = some tok)
    (hlen : 4 ≤ (splitOnChar ':' tok).length) :
    (processAttributeOption s)[i]? = some none
    ∧ getSummaryTags rejectAllFormats (some (processAttributeOption "a:b:c:d")) 3
        [[("a", "x")]] =
      .error "TypeError: Cannot read properties of undefined (reading attribute)"
    ∧ getDocumentTitle rejectAllFormats (some (processAttributeOption "a:b:c:d")) [("a", "x")] =
      .error "TypeError: Cannot read properties of undefined (reading attribute)"
    ∧ getDetails rejectAllFormats (some (processAttributeOption "a:b:c:d")) none
        [[("a", "x")]] true none =
      .error "TypeError: Cannot read properties of undefined (reading attribute)" := by
  refine ⟨?_, by decide, by decide, by decide⟩
  unfold processAttributeOption
  rw [List.getElem?_map, htok]
  rcases hsp : splitOnChar ':' tok with _ | ⟨a, _ | ⟨b, _ | ⟨c, _ | ⟨d, rest⟩⟩⟩⟩ <;>
    rw [hsp] at hlen
  · simp at hlen
  · simp at hlen
  · simp at hlen
  · simp at hlen
  · simp [hsp]

/-- Witness for claim C10: the theorem applied to the spec string
`a:b:c:d` (one token, four fields) at index 0. -/
theorem claim_C10_witness :
    (processAttributeOption "a:b:c:d")[0]? = some none
    ∧ getSummaryTags rejectAllFormats (some (processAttributeOption "a:b:c:d")) 3
        [[("a", "x")]] =
      .error "TypeError: Cannot read properties of undefined (reading attribute)" :=
  ⟨(claim_C10 "a:b:c:d" 0 ("a:b:c:d".toList) (by decide) (by decide)).1,
   (claim_C10 "a:b:c:d" 0 ("a:b:c:d".toList) (by decide) (by decide)).2.1⟩
end AwsAthena
